import Mathlib

/-!
# CABM Installation Manager (`Installation Manager/main.cpp`)

A shallow embedding of the installer's single source file.  The program only
sequences calls to the operating system, so the embedding threads a `World`
through every function: the `World` records each call in order (its `trace`)
and the contents of the files the program writes.  What the operating system
answers to each call is taken from an `Env`, which may answer differently at
every point of the history; the theorems hold for every `Env`.
-/

set_option linter.unusedVariables false
set_option maxRecDepth 8000

namespace CABM

/-! ## Strings, handles, events -/

/-- A `std::string` / `char` buffer: a sequence of bytes. -/
abbrev Bytes := List UInt8

/-- A `HINTERNET`, `FILE*` or `HANDLE` value that is not `NULL`. -/
abbrev Handle := Nat

/-- The bytes of a string literal of the source file (which is UTF-8). -/
def lit (s : String) : Bytes := s.data.flatMap String.utf8EncodeChar

/-- What a C function reads through `s.c_str()`: the bytes before the first NUL. -/
def c_str (s : Bytes) : Bytes := s.takeWhile (fun b => b ≠ 0)

/-- Everything the program does that is visible from outside, and the entry to
and the return from the two functions `downloadFile` and `executeCommand`. -/
inductive Event where
  | cout (line : Bytes)
  | enter_downloadFile (url filePath : Bytes)
  | leave_downloadFile (result : Bool)
  | enter_executeCommand (command : Bytes)
  | leave_executeCommand (result : Bool)
  | InternetOpen (result : Option Handle)
  | InternetOpenUrl (hInternet : Handle) (url : Bytes) (result : Option Handle)
  | InternetReadFile (hFile : Handle) (ok : Bool) (data : Bytes)
  | InternetCloseHandle (h : Handle)
  | fopen (path : Bytes) (result : Option Handle)
  | fwrite (file : Handle) (data : Bytes) (written : Nat)
  | fclose (file : Handle) (ok : Bool)
  | CreateProcess (cmdLine : Bytes) (result : Option (Handle × Handle))
  | WaitForSingleObject (h : Handle)
  | CloseHandle (h : Handle)
  deriving DecidableEq, Repr

/-- The answers of the operating system.  An answer may depend on everything
that happened before (the trace so far).
* `InternetReadFile h` gives the results `(ok, data)` of the successive reads
  of the response behind the handle `h`: `ok = false` is a read that fails,
  `(true, [])` a read that reports the end of the response; once the results
  are used up every read reports the end of the response.  A response is thus
  a finite sequence of reads.
* `fwrite` gives the number of bytes the call manages to write (what `fwrite`
  returns; at most the number asked for).
* `fclose` gives `none` when the file is closed with everything written, and
  `some n` when the close fails and only the first `n` bytes of the file have
  reached the disk. -/
structure Env where
  InternetOpen : List Event → Option Handle
  InternetOpenUrl : List Event → Option Handle
  InternetReadFile : Handle → List (Bool × Bytes)
  fopen : List Event → Option Handle
  fwrite : List Event → Nat
  fclose : List Event → Option Nat
  CreateProcess : List Event → Option (Handle × Handle)
  getenv : Bytes → Option Bytes

/-- The state the program runs in: the calls made so far, oldest first, and the
content of each file (`none`: the file does not exist). -/
@[ext]
structure World where
  trace : List Event
  files : Bytes → Option Bytes

/-- An open `FILE*`: the handle and the path it was opened on. -/
structure FILE where
  handle : Handle
  path : Bytes

/-- Append one event to the trace. -/
def emit (e : Event) (w : World) : World :=
  { w with trace := w.trace ++ [e] }

/-- One statement `cout << ... << endl;`. -/
def cout (line : Bytes) (w : World) : World := emit (.cout line) w

/-! ## Operating-system calls -/

def InternetOpen (env : Env) (w : World) : Option Handle × World :=
  let r := env.InternetOpen w.trace
  (r, emit (.InternetOpen r) w)

def InternetOpenUrl (env : Env) (hInternet : Handle) (url : Bytes) (w : World) :
    Option Handle × World :=
  let r := env.InternetOpenUrl w.trace
  (r, emit (.InternetOpenUrl hInternet url r) w)

def InternetCloseHandle (h : Handle) (w : World) : World :=
  emit (.InternetCloseHandle h) w

/-- The call `fopen(path, "wb")`: on success the file exists and is empty. -/
def fopen_wb (env : Env) (path : Bytes) (w : World) : Option FILE × World :=
  match env.fopen w.trace with
  | none => (none, emit (.fopen path none) w)
  | some h =>
    (some ⟨h, path⟩,
      { trace := w.trace ++ [.fopen path (some h)]
        files := fun p => if p = path then some [] else w.files p })

/-- The call `fwrite(buffer, 1, bytesRead, file)`: as many of the bytes as the
operating system takes are added at the end of the file.  The source does not
look at what `fwrite` returns. -/
def fwrite (env : Env) (buffer : Bytes) (file : FILE) (w : World) : World :=
  let written := min (env.fwrite w.trace) buffer.length
  { trace := w.trace ++ [.fwrite file.handle buffer written]
    files := fun p => if p = file.path then
                        (w.files p).map (fun old => old ++ buffer.take written)
                      else w.files p }

/-- The call `fclose(file)`: when it fails, only a first part of the file has
reached the disk.  The source does not look at what `fclose` returns. -/
def fclose (env : Env) (file : FILE) (w : World) : World :=
  match env.fclose w.trace with
  | none => emit (.fclose file.handle true) w
  | some n =>
    { trace := w.trace ++ [.fclose file.handle false]
      files := fun p => if p = file.path then (w.files p).map (fun old => old.take n)
                        else w.files p }

def CreateProcess (env : Env) (cmdLine : Bytes) (w : World) :
    Option (Handle × Handle) × World :=
  let r := env.CreateProcess w.trace
  (r, emit (.CreateProcess cmdLine r) w)

def WaitForSingleObject (h : Handle) (w : World) : World :=
  emit (.WaitForSingleObject h) w

def CloseHandle (h : Handle) (w : World) : World := emit (.CloseHandle h) w

/-! ## `printHelp` (lines 12-26) -/

/-- The lines `printHelp` prints. -/
def helpText : List Bytes :=
  [ lit "CABM Installation Manager",
    lit "Usage:",
    lit "  install [options]         - Install CABM environment",
    lit "  use <command>            - Run command in CABM environment",
    lit "Options:",
    lit "  all                       - Install everything (default)",
    lit "  --use-local-conda        - Skip Miniforge installation",
    lit "  --use-local-python       - Use local Python, only install requirements",
    [],
    lit "Examples:",
    lit "  main.exe install",
    lit "  main.exe use python run.py",
    [] ]

def printHelp (w : World) : World :=
  helpText.foldl (fun w line => cout line w) w

/-! ## `downloadFile` (lines 28-56) -/

/-- The loop of lines 48-50, `reads` being the results the remaining reads will
give.  A read fills at most the 1024 bytes of `buffer`. -/
def downloadFile_loop (env : Env) (hConnect : Handle) (file : FILE) :
    List (Bool × Bytes) → World → World
  | [], w => emit (.InternetReadFile hConnect true []) w
  | (ok, data) :: reads, w =>
    let buffer := data.take 1024
    let bytesRead := buffer.length
    let w := emit (.InternetReadFile hConnect ok buffer) w
    if ok && bytesRead > 0 then
      downloadFile_loop env hConnect file reads (fwrite env buffer file w)
    else w

/-- A `return` of `downloadFile`. -/
def downloadFile_return (result : Bool) (w : World) : Bool × World :=
  (result, emit (.leave_downloadFile result) w)

def downloadFile (env : Env) (url filePath : Bytes) (w : World) : Bool × World :=
  let w := emit (.enter_downloadFile url filePath) w
  let (hInternet, w) := InternetOpen env w
  match hInternet with
  | none => downloadFile_return false w
  | some hInternet =>
    let (hConnect, w) := InternetOpenUrl env hInternet (c_str url) w
    match hConnect with
    | none =>
      let w := InternetCloseHandle hInternet w
      downloadFile_return false w
    | some hConnect =>
      let (file, w) := fopen_wb env (c_str filePath) w
      match file with
      | none =>
        let w := InternetCloseHandle hConnect w
        let w := InternetCloseHandle hInternet w
        downloadFile_return false w
      | some file =>
        let w := downloadFile_loop env hConnect file (env.InternetReadFile hConnect) w
        let w := fclose env file w
        let w := InternetCloseHandle hConnect w
        let w := InternetCloseHandle hInternet w
        downloadFile_return true w

/-! ## `executeCommand` (lines 58-77) -/

/-- A `return` of `executeCommand`. -/
def executeCommand_return (result : Bool) (w : World) : Bool × World :=
  (result, emit (.leave_executeCommand result) w)

/-- The C string left in `cmdLine` by lines 65-67: `strncpy` copies the bytes
of `command.c_str()` up to its terminator, `sizeof(cmdLine) - 1` of them at
most, and the last byte of the buffer is set to NUL. -/
def executeCommand_cmdLine (command : Bytes) : Bytes :=
  (c_str command).take (1024 - 1)

def executeCommand (env : Env) (command : Bytes) (w : World) : Bool × World :=
  let w := emit (.enter_executeCommand command) w
  let cmdLine := executeCommand_cmdLine command
  let (pi, w) := CreateProcess env cmdLine w
  match pi with
  | none => executeCommand_return false w
  | some (hProcess, hThread) =>
    let w := WaitForSingleObject hProcess w
    let w := CloseHandle hProcess w
    let w := CloseHandle hThread w
    executeCommand_return true w

/-! ## `install` (lines 79-123) -/

def miniforgeUrl : Bytes :=
  lit "https://mirror.nju.edu.cn/github-release/conda-forge/miniforge/LatestRelease/Miniforge3-25.3.1-0-Windows-x86_64.exe"

def installerPath : Bytes := lit "miniforge_installer.exe"

/-- Lines 98-122: what `install` does once the first block is through. -/
def install_environment (env : Env) (useLocalPython : Bool) (w : World) : World :=
  if !useLocalPython then
    let w := cout (lit "Creating Python 3.10 environment...") w
    let userProfile := env.getenv (lit "USERPROFILE")
    let condaPath :=
      match userProfile with
      | some p => p ++ lit "\\.conda"
      | none => lit ".conda"
    let createEnvCommand := lit "conda create -n cabm python=3.10 -y"
    let (ok, w) := executeCommand env (c_str createEnvCommand) w
    if !ok then
      cout (lit "Failed to create Python environment") w
    else
      let w := cout (lit "Installing requirements...") w
      let installReqCommand :=
        lit "cmd /C \"conda activate cabm && pip install -r requirements.txt\""
      let (ok, w) := executeCommand env (c_str installReqCommand) w
      if !ok then
        cout (lit "Failed to install requirements") w
      else
        cout (lit "Installation completed successfully!") w
  else
    let w := cout (lit "Installing requirements using local Python...") w
    let (ok, w) := executeCommand env (lit "pip install -r requirements.txt") w
    if !ok then
      cout (lit "Failed to install requirements") w
    else
      cout (lit "Installation completed successfully!") w

def install (env : Env) (skipConda useLocalPython : Bool) (w : World) : World :=
  if !skipConda && !useLocalPython then
    let w := cout (lit "Downloading Miniforge...") w
    let (ok, w) := downloadFile env miniforgeUrl installerPath w
    if !ok then
      cout (lit "Failed to download Miniforge") w
    else
      let w := cout (lit "Installing Miniforge...") w
      let installCommand :=
        installerPath ++ lit " /S /RegisterPython=0 /AddToPath=0 /InstallationType=JustMe"
      let (ok, w) := executeCommand env installCommand w
      if !ok then
        cout (lit "Failed to install Miniforge") w
      else
        install_environment env useLocalPython w
  else
    install_environment env useLocalPython w

/-! ## `main` (lines 125-162) -/

/-- The loop of lines 137-141, at index `i` with `n` arguments left. -/
def main_flags (argv : List Bytes) : Nat → Nat → Bool × Bool → Bool × Bool
  | 0, _, flags => flags
  | n + 1, i, (skipConda, useLocalPython) =>
    let arg := argv.getD i []
    let skipConda := if arg = lit "--use-local-conda" then true else skipConda
    let useLocalPython := if arg = lit "--use-local-python" then true else useLocalPython
    main_flags argv n (i + 1) (skipConda, useLocalPython)

/-- The loop of lines 147-150, at index `i` with `n` arguments left. -/
def main_userCmd (argv : List Bytes) : Nat → Nat → Bytes → Bytes
  | 0, _, userCmd => userCmd
  | n + 1, i, userCmd =>
    let userCmd := if i > 2 then userCmd ++ lit " " else userCmd
    let userCmd := userCmd ++ argv.getD i []
    main_userCmd argv n (i + 1) userCmd

/-- The program: `argv` holds the program name and the arguments, each as the
bytes before its terminating NUL; `argc` is their number. -/
def main (env : Env) (argv : List Bytes) (w : World) : Int × World :=
  let argc := argv.length
  if argc < 2 then
    (0, printHelp w)
  else
    let command := argv.getD 1 []
    if command = lit "install" then
      let (skipConda, useLocalPython) := main_flags argv (argc - 2) 2 (false, false)
      (0, install env skipConda useLocalPython w)
    else if command = lit "use" ∧ argc > 2 then
      let userCmd := main_userCmd argv (argc - 2) 2 []
      let fullCmd := lit "cmd /C \"conda activate cabm && " ++ userCmd ++ lit "\""
      let w := cout (lit "[CABM] 执行: " ++ userCmd) w
      let (ok, w) := executeCommand env fullCmd w
      if !ok then
        (0, cout (lit "命令执行失败。") w)
      else
        (0, w)
    else
      (0, printHelp w)

/-! ## Observations on a run -/

/-- The events a run from `w` to `w'` has added to the trace. -/
def performed (w w' : World) : List Event := w'.trace.drop w.trace.length

/-- An event that is a call of `downloadFile` or of `executeCommand`. -/
def isCall : Event → Bool
  | .enter_downloadFile _ _ => true
  | .enter_executeCommand _ => true
  | _ => false

/-- The calls of `downloadFile` and `executeCommand` in a trace, in order. -/
def calls (tr : List Event) : List Event := tr.filter isCall

/-- What the calls of `downloadFile` and `executeCommand` returned, in order. -/
def reports (tr : List Event) : List Bool :=
  tr.filterMap fun
    | .leave_downloadFile r => some r
    | .leave_executeCommand r => some r
    | _ => none

/-- A call of `downloadFile` or `executeCommand` returning `false`. -/
def isFailure : Event → Bool
  | .leave_downloadFile false => true
  | .leave_executeCommand false => true
  | _ => false

/-- The command lines handed to process creation, in order. -/
def commandLines (tr : List Event) : List Bytes :=
  tr.filterMap fun
    | .CreateProcess cmdLine _ => some cmdLine
    | _ => none

/-- The command strings passed to `executeCommand`, in order. -/
def commands (tr : List Event) : List Bytes :=
  tr.filterMap fun
    | .enter_executeCommand command => some command
    | _ => none

/-- The events the claims about `install` and `main` speak of: output lines,
calls of the two functions and their returns. -/
def isStep : Event → Bool
  | .cout _ => true
  | .enter_downloadFile _ _ => true
  | .leave_downloadFile _ => true
  | .enter_executeCommand _ => true
  | .leave_executeCommand _ => true
  | _ => false

def steps (tr : List Event) : List Event := tr.filter isStep

/-- The arguments joined with one single space between consecutive ones, with
no space before the first or after the last (the words of the claim on `use`;
the loop of the source is `main_userCmd`). -/
def joinWithSpaces : List Bytes → Bytes
  | [] => []
  | [a] => a
  | a :: b :: rest => a ++ lit " " ++ joinWithSpaces (b :: rest)

/-- Every argument preceded by one space. -/
def spaced (l : List Bytes) : Bytes := l.flatMap fun a => lit " " ++ a

/-- A network or file handle that has to be given back. -/
inductive Resource where
  | internet (h : Handle)
  | file (h : Handle)
  deriving DecidableEq, Repr

/-- The resource an event opens, if it opens one. -/
def acquires : Event → Option Resource
  | .InternetOpen (some h) => some (.internet h)
  | .InternetOpenUrl _ _ (some h) => some (.internet h)
  | .fopen _ (some h) => some (.file h)
  | _ => none

/-- The resource an event closes, if it closes one. -/
def releases : Event → Option Resource
  | .InternetCloseHandle h => some (.internet h)
  | .fclose h _ => some (.file h)
  | _ => none

/-- Follow a trace with the resources that are open: an open adds its resource,
a close takes one occurrence of it away.  `none`: some close was of a resource
that was not open at that point. -/
def held : List Resource → List Event → Option (List Resource)
  | live, [] => some live
  | live, e :: tr =>
    match acquires e, releases e with
    | some r, _ => held (r :: live) tr
    | none, some r => if r ∈ live then held (live.erase r) tr else none
    | none, none => held live tr

/-- The resources a trace opens, in order. -/
def acquired (tr : List Event) : List Resource := tr.filterMap acquires

/-- The resources a trace closes, in order. -/
def released (tr : List Event) : List Resource := tr.filterMap releases

/-- The results `(ok, data)` of the reads of a response, in order. -/
def readResults (tr : List Event) : List (Bool × Bytes) :=
  tr.filterMap fun
    | .InternetReadFile _ ok data => some (ok, data)
    | _ => none

/-- The chunks a trace has read: the data of its reads before the first one that
fails or delivers no byte. -/
def chunks (tr : List Event) : List Bytes :=
  ((readResults tr).takeWhile fun r => r.1 && r.2.length > 0).map Prod.snd

/-- What follows each failing return in a trace. -/
def afterFailures : List Event → List (List Event)
  | [] => []
  | e :: l => if isFailure e then l :: afterFailures l else afterFailures l

/-- The abort points of a trace: each event that is directly followed by a
failing return, with what follows that return. -/
def abortPoints : List Event → List (Event × List Event)
  | c :: r :: l =>
    if isFailure r then (c, l) :: abortPoints (r :: l) else abortPoints (r :: l)
  | _ => []

/-- The five calls of `install` whose failure ends the flow, each with the
message printed then (lines 86, 93, 104, 111 and 117). -/
def abortTable : List (Event × Bytes) :=
  [ (.enter_downloadFile miniforgeUrl installerPath, lit "Failed to download Miniforge"),
    (.enter_executeCommand
        (lit "miniforge_installer.exe /S /RegisterPython=0 /AddToPath=0 /InstallationType=JustMe"),
      lit "Failed to install Miniforge"),
    (.enter_executeCommand (lit "conda create -n cabm python=3.10 -y"),
      lit "Failed to create Python environment"),
    (.enter_executeCommand
        (lit "cmd /C \"conda activate cabm && pip install -r requirements.txt\""),
      lit "Failed to install requirements"),
    (.enter_executeCommand (lit "pip install -r requirements.txt"),
      lit "Failed to install requirements") ]

/-- A call that installs the requirements: inside the conda environment (line
110) or with the local Python (line 116). -/
def isRequirementsInstall (c : Event) : Prop :=
  c = .enter_executeCommand
        (lit "cmd /C \"conda activate cabm && pip install -r requirements.txt\"") ∨
  c = .enter_executeCommand (lit "pip install -r requirements.txt")

/-! ## Concrete worlds and operating systems -/

/-- The world before the program starts: nothing done yet, no files. -/
def w0 : World := ⟨[], fun _ => none⟩

/-- An operating system on which every call succeeds; a response is the three
bytes `1 2 3`, delivered by one read. -/
def envOk : Env where
  InternetOpen := fun _ => some 1
  InternetOpenUrl := fun _ => some 2
  InternetReadFile := fun _ => [(true, [1, 2, 3])]
  fopen := fun _ => some 3
  fwrite := fun _ => 1024
  fclose := fun _ => none
  CreateProcess := fun _ => some (4, 5)
  getenv := fun _ => none

/-- An operating system on which no session, file or process can be opened. -/
def envFail : Env where
  InternetOpen := fun _ => none
  InternetOpenUrl := fun _ => none
  InternetReadFile := fun _ => []
  fopen := fun _ => none
  fwrite := fun _ => 0
  fclose := fun _ => none
  CreateProcess := fun _ => none
  getenv := fun _ => none

/-- An operating system that creates the first process asked for and no other. -/
def envSecondFails : Env where
  InternetOpen := fun _ => some 1
  InternetOpenUrl := fun _ => some 2
  InternetReadFile := fun _ => [(true, [1, 2, 3])]
  fopen := fun _ => some 3
  fwrite := fun _ => 1024
  fclose := fun _ => none
  CreateProcess := fun tr => if (commandLines tr).isEmpty then some (4, 5) else none
  getenv := fun _ => none

/-- An operating system on which every call succeeds; a response is delivered
as `1 2`, then `3`, then the end of the response. -/
def envChunks : Env where
  InternetOpen := fun _ => some 1
  InternetOpenUrl := fun _ => some 2
  InternetReadFile := fun _ => [(true, [1, 2]), (true, [3]), (true, []), (true, [7])]
  fopen := fun _ => some 3
  fwrite := fun _ => 1024
  fclose := fun _ => none
  CreateProcess := fun _ => some (4, 5)
  getenv := fun _ => none

/-- An operating system on which every call succeeds but the second read of a
response, which fails; the response is `1 2`, then `3`. -/
def envReadError : Env where
  InternetOpen := fun _ => some 1
  InternetOpenUrl := fun _ => some 2
  InternetReadFile := fun _ => [(true, [1, 2]), (false, []), (true, [3])]
  fopen := fun _ => some 3
  fwrite := fun _ => 1024
  fclose := fun _ => none
  CreateProcess := fun _ => some (4, 5)
  getenv := fun _ => none

/-- An operating system on which every call succeeds but `fclose`, which fails
with nothing of the file on the disk.  The response is `1 2 3`. -/
def envCloseFails : Env where
  InternetOpen := fun _ => some 1
  InternetOpenUrl := fun _ => some 2
  InternetReadFile := fun _ => [(true, [1, 2, 3])]
  fopen := fun _ => some 3
  fwrite := fun _ => 1024
  fclose := fun _ => some 0
  CreateProcess := fun _ => some (4, 5)
  getenv := fun _ => none

/-- An operating system on which every call succeeds but the disk is full:
`fwrite` writes no byte.  The response is `1 2 3`. -/
def envDiskFull : Env where
  InternetOpen := fun _ => some 1
  InternetOpenUrl := fun _ => some 2
  InternetReadFile := fun _ => [(true, [1, 2, 3])]
  fopen := fun _ => some 3
  fwrite := fun _ => 0
  fclose := fun _ => none
  CreateProcess := fun _ => some (4, 5)
  getenv := fun _ => none

/-- A world in which `miniforge_installer.exe` exists already, holding `9 9`. -/
def wOld : World :=
  ⟨[], fun p => if p = lit "miniforge_installer.exe" then some [9, 9] else none⟩

/-- The command line `main.exe install all`. -/
def argvInstallAll : List Bytes := [lit "main.exe", lit "install", lit "all"]

/-- The command line `main.exe install all --use-local-conda`. -/
def argvSkipConda : List Bytes :=
  [lit "main.exe", lit "install", lit "all", lit "--use-local-conda"]

/-- The command line `main.exe install --use-local-conda --use-local-python`. -/
def argvLocalPython : List Bytes :=
  [lit "main.exe", lit "install", lit "--use-local-conda", lit "--use-local-python"]

/-- The command line `main.exe use` followed by one argument of 1000 letters `a`. -/
def argvUseLong : List Bytes := [lit "main.exe", lit "use", List.replicate 1000 97]

/-- The command line `main.exe use python run.py`. -/
def argvUsePython : List Bytes := [lit "main.exe", lit "use", lit "python", lit "run.py"]

/-- The number of bytes the next `fwrite` of `buffer` writes after the trace `tr`. -/
def writtenOf (env : Env) (tr : List Event) (buffer : Bytes) : Nat :=
  min (env.fwrite tr) buffer.length

/-- The events of the loop of `downloadFile` started after the trace `tr`, when
the reads give `reads`. -/
def loopEvents (env : Env) (hConnect file : Handle) :
    List (Bool × Bytes) → List Event → List Event
  | [], _ => [.InternetReadFile hConnect true []]
  | (ok, data) :: reads, tr =>
    if ok && (data.take 1024).length > 0 then
      .InternetReadFile hConnect ok (data.take 1024) ::
      .fwrite file (data.take 1024)
        (writtenOf env (tr ++ [.InternetReadFile hConnect ok (data.take 1024)])
          (data.take 1024)) ::
      loopEvents env hConnect file reads
        (tr ++ [.InternetReadFile hConnect ok (data.take 1024),
          .fwrite file (data.take 1024)
            (writtenOf env (tr ++ [.InternetReadFile hConnect ok (data.take 1024)])
              (data.take 1024))])
    else [.InternetReadFile hConnect ok (data.take 1024)]

/-- The bytes the loop of `downloadFile` started after the trace `tr` adds to
the file, when the reads give `reads`. -/
def loopBytes (env : Env) (hConnect file : Handle) :
    List (Bool × Bytes) → List Event → Bytes
  | [], _ => []
  | (ok, data) :: reads, tr =>
    if ok && (data.take 1024).length > 0 then
      (data.take 1024).take
        (writtenOf env (tr ++ [.InternetReadFile hConnect ok (data.take 1024)])
          (data.take 1024)) ++
      loopBytes env hConnect file reads
        (tr ++ [.InternetReadFile hConnect ok (data.take 1024),
          .fwrite file (data.take 1024)
            (writtenOf env (tr ++ [.InternetReadFile hConnect ok (data.take 1024)])
              (data.take 1024))])
    else []

/-- What of the bytes `old` of a file is on the disk once `fclose` has answered
`kept`. -/
def closedBytes (kept : Option Nat) (old : Bytes) : Bytes :=
  match kept with
  | none => old
  | some n => old.take n

/-- A read that failed. -/
def readFailed : Event → Bool
  | .InternetReadFile _ false _ => true
  | _ => false

/-- A call of `fwrite` that wrote fewer bytes than it was given. -/
def shortWrite : Event → Bool
  | .fwrite _ data written => decide (written ≠ data.length)
  | _ => false

/-- A call of `fclose` that failed. -/
def closeFailed : Event → Bool
  | .fclose _ false => true
  | _ => false

/-- The chunks of a response, whose reads give `reads`, up to its end: the data
of the successful reads (a read fills at most the 1024 bytes of the buffer)
before the first read that reports the end of the response.  A read that
fails delivers nothing and is not the end of the response. -/
def responseChunks : List (Bool × Bytes) → List Bytes
  | [] => []
  | (ok, data) :: reads =>
    if ok then
      if (data.take 1024).length > 0 then data.take 1024 :: responseChunks reads else []
    else responseChunks reads

/-- The output lines, calls and returns of lines 98-122 of `install`, given what
the calls return (`r3`: the first call, `r4`: the second). -/
def install_environment_steps (useLocalPython r3 r4 : Bool) : List Event :=
  if !useLocalPython then
    [.cout (lit "Creating Python 3.10 environment..."),
     .enter_executeCommand (lit "conda create -n cabm python=3.10 -y"),
     .leave_executeCommand r3] ++
    (if !r3 then [.cout (lit "Failed to create Python environment")]
     else
      [.cout (lit "Installing requirements..."),
       .enter_executeCommand
         (lit "cmd /C \"conda activate cabm && pip install -r requirements.txt\""),
       .leave_executeCommand r4] ++
      (if !r4 then [.cout (lit "Failed to install requirements")]
       else [.cout (lit "Installation completed successfully!")]))
  else
    [.cout (lit "Installing requirements using local Python..."),
     .enter_executeCommand (lit "pip install -r requirements.txt"),
     .leave_executeCommand r3] ++
    (if !r3 then [.cout (lit "Failed to install requirements")]
     else [.cout (lit "Installation completed successfully!")])

/-- The output lines, calls and returns of `install`, given what the calls
return (`r1`: `downloadFile`, `r2`: the installer, `r3`, `r4`: the rest). -/
def install_steps (skipConda useLocalPython r1 r2 r3 r4 : Bool) : List Event :=
  if !skipConda && !useLocalPython then
    [.cout (lit "Downloading Miniforge..."),
     .enter_downloadFile miniforgeUrl installerPath,
     .leave_downloadFile r1] ++
    (if !r1 then [.cout (lit "Failed to download Miniforge")]
     else
      [.cout (lit "Installing Miniforge..."),
       .enter_executeCommand
         (lit "miniforge_installer.exe /S /RegisterPython=0 /AddToPath=0 /InstallationType=JustMe"),
       .leave_executeCommand r2] ++
      (if !r2 then [.cout (lit "Failed to install Miniforge")]
       else install_environment_steps useLocalPython r3 r4))
  else install_environment_steps useLocalPython r3 r4

/-! ## Symbolic execution of the two functions -/

@[simp]
theorem emit_trace (e : Event) (w : World) : (emit e w).trace = w.trace ++ [e] := rfl

@[simp]
theorem emit_files (e : Event) (w : World) : (emit e w).files = w.files := rfl

@[simp]
theorem cout_trace (l : Bytes) (w : World) :
    (cout l w).trace = w.trace ++ [.cout l] := rfl

@[simp]
theorem cout_files (l : Bytes) (w : World) : (cout l w).files = w.files := rfl

theorem performed_append (w w' : World) (new : List Event)
    (h : w'.trace = w.trace ++ new) : performed w w' = new := by
  simp [performed, h]

theorem loop_run (env : Env) (hConnect : Handle) (file : FILE) (reads : List (Bool × Bytes))
    (w : World) :
    downloadFile_loop env hConnect file reads w
      = ⟨w.trace ++ loopEvents env hConnect file.handle reads w.trace,
         fun p => if p = file.path then
                    (w.files p).map
                      (fun old => old ++ loopBytes env hConnect file.handle reads w.trace)
                  else w.files p⟩ := by
  induction reads generalizing w with
  | nil =>
    ext1
    · simp [downloadFile_loop, loopEvents]
    · funext p
      cases h : w.files p <;> simp [downloadFile_loop, loopBytes, h]
  | cons r reads ih =>
    obtain ⟨ok, data⟩ := r
    by_cases h : (ok && decide ((List.take 1024 data).length > 0)) = true
    · rw [downloadFile_loop, loopEvents, loopBytes]
      simp only [h, if_true]
      rw [ih]
      ext1
      · simp [fwrite, writtenOf]
      · funext p
        by_cases hp : p = file.path
        · cases hf : w.files p <;> simp [fwrite, writtenOf, hp, hf] <;> simp [← hp, hf]
        · simp [fwrite, hp]
    · rw [downloadFile_loop, loopEvents, loopBytes]
      simp only [h]
      ext1
      · simp
      · funext p
        cases hf : w.files p <;> simp [hf]

/-- What a file holds once `fclose` has answered `kept`. -/
theorem fclose_run (env : Env) (file : FILE) (w : World) :
    fclose env file w
      = ⟨w.trace ++ [.fclose file.handle (env.fclose w.trace).isNone],
         fun p => if p = file.path then
                    (w.files p).map (fun old => closedBytes (env.fclose w.trace) old)
                  else w.files p⟩ := by
  unfold fclose
  cases h : env.fclose w.trace with
  | none =>
    ext1
    · simp
    · funext p
      cases hf : w.files p <;> simp [closedBytes, hf]
  | some n =>
    ext1
    · simp
    · funext p
      simp [closedBytes]

/-- The four ways through `downloadFile`, each with the world it leaves. -/
theorem downloadFile_cases (env : Env) (url filePath : Bytes) (w : World) :
    (downloadFile env url filePath w
        = (false, ⟨w.trace ++ [.enter_downloadFile url filePath, .InternetOpen none,
              .leave_downloadFile false], w.files⟩)) ∨
    (∃ hInternet, downloadFile env url filePath w
        = (false, ⟨w.trace ++ [.enter_downloadFile url filePath, .InternetOpen (some hInternet),
              .InternetOpenUrl hInternet (c_str url) none, .InternetCloseHandle hInternet,
              .leave_downloadFile false], w.files⟩)) ∨
    (∃ hInternet hConnect, downloadFile env url filePath w
        = (false, ⟨w.trace ++ [.enter_downloadFile url filePath, .InternetOpen (some hInternet),
              .InternetOpenUrl hInternet (c_str url) (some hConnect),
              .fopen (c_str filePath) none, .InternetCloseHandle hConnect,
              .InternetCloseHandle hInternet, .leave_downloadFile false], w.files⟩)) ∨
    (∃ hInternet hConnect file kept, downloadFile env url filePath w
        = (true, ⟨w.trace ++ ([.enter_downloadFile url filePath, .InternetOpen (some hInternet),
              .InternetOpenUrl hInternet (c_str url) (some hConnect),
              .fopen (c_str filePath) (some file)] ++
              loopEvents env hConnect file (env.InternetReadFile hConnect)
                (w.trace ++ [.enter_downloadFile url filePath, .InternetOpen (some hInternet),
                  .InternetOpenUrl hInternet (c_str url) (some hConnect),
                  .fopen (c_str filePath) (some file)]) ++
              [.fclose file kept.isNone, .InternetCloseHandle hConnect,
               .InternetCloseHandle hInternet, .leave_downloadFile true]),
            fun p => if p = c_str filePath then
                some (closedBytes kept
                  (loopBytes env hConnect file (env.InternetReadFile hConnect)
                    (w.trace ++ [.enter_downloadFile url filePath,
                      .InternetOpen (some hInternet),
                      .InternetOpenUrl hInternet (c_str url) (some hConnect),
                      .fopen (c_str filePath) (some file)])))
              else w.files p⟩)) := by
  rcases h1 : env.InternetOpen (w.trace ++ [.enter_downloadFile url filePath]) with _ | hI
  · left
    simp [downloadFile, InternetOpen, downloadFile_return, h1, emit]
  · right
    rcases h2 : env.InternetOpenUrl (w.trace ++ [.enter_downloadFile url filePath,
        .InternetOpen (some hI)]) with _ | hC
    · left
      exact ⟨hI, by simp [downloadFile, InternetOpen, InternetOpenUrl, InternetCloseHandle,
        downloadFile_return, h1, h2, emit]⟩
    · right
      rcases h3 : env.fopen (w.trace ++ [.enter_downloadFile url filePath,
          .InternetOpen (some hI), .InternetOpenUrl hI (c_str url) (some hC)]) with _ | f
      · left
        exact ⟨hI, hC, by simp [downloadFile, InternetOpen, InternetOpenUrl, InternetCloseHandle,
          fopen_wb, downloadFile_return, h1, h2, h3, emit]⟩
      · right
        refine ⟨hI, hC, f, env.fclose (w.trace ++ ([.enter_downloadFile url filePath,
          .InternetOpen (some hI), .InternetOpenUrl hI (c_str url) (some hC),
          .fopen (c_str filePath) (some f)] ++
          loopEvents env hC f (env.InternetReadFile hC)
            (w.trace ++ [.enter_downloadFile url filePath, .InternetOpen (some hI),
              .InternetOpenUrl hI (c_str url) (some hC),
              .fopen (c_str filePath) (some f)]))), ?_⟩
        simp only [downloadFile, InternetOpen, InternetOpenUrl, InternetCloseHandle,
          fopen_wb, downloadFile_return, h1, h2, h3, emit, List.append_assoc,
          List.singleton_append, List.cons_append, List.nil_append, loop_run, fclose_run]
        refine Prod.ext rfl ?_
        ext1
        · simp
        · funext p
          by_cases hp : p = c_str filePath <;> simp [hp]

/-- The two ways through `executeCommand`, each with the world it leaves. -/
theorem executeCommand_cases (env : Env) (command : Bytes) (w : World) :
    (executeCommand env command w
        = (false, ⟨w.trace ++ [.enter_executeCommand command,
              .CreateProcess (executeCommand_cmdLine command) none,
              .leave_executeCommand false], w.files⟩)) ∨
    (∃ hProcess hThread, executeCommand env command w
        = (true, ⟨w.trace ++ [.enter_executeCommand command,
              .CreateProcess (executeCommand_cmdLine command) (some (hProcess, hThread)),
              .WaitForSingleObject hProcess, .CloseHandle hProcess, .CloseHandle hThread,
              .leave_executeCommand true], w.files⟩)) := by
  rcases h : env.CreateProcess (w.trace ++ [.enter_executeCommand command]) with _ | ⟨hP, hT⟩
  · left
    simp [executeCommand, CreateProcess, executeCommand_return, h, emit]
  · right
    exact ⟨hP, hT, by simp [executeCommand, CreateProcess, executeCommand_return,
      WaitForSingleObject, CloseHandle, h, emit]⟩

@[simp]
theorem steps_nil : steps [] = [] := rfl

@[simp]
theorem steps_append (a b : List Event) : steps (a ++ b) = steps a ++ steps b := by
  simp [steps]

@[simp]
theorem steps_cons (e : Event) (l : List Event) :
    steps (e :: l) = if isStep e then e :: steps l else steps l := by
  simp [steps, List.filter_cons]

theorem steps_loopEvents (env : Env) (hConnect file : Handle) (reads : List (Bool × Bytes))
    (tr : List Event) : steps (loopEvents env hConnect file reads tr) = [] := by
  induction reads generalizing tr with
  | nil => simp [loopEvents, isStep]
  | cons r reads ih =>
    obtain ⟨ok, data⟩ := r
    by_cases h : (ok && decide ((List.take 1024 data).length > 0)) = true
    · rw [loopEvents, if_pos h]; simp [isStep, ih]
    · rw [loopEvents, if_neg h]; simp [isStep]

/-- A call of `downloadFile` adds its entry, events that are no steps, and its return. -/
theorem downloadFile_summary (env : Env) (url filePath : Bytes) (w : World) :
    ∃ r w1 new, downloadFile env url filePath w = (r, w1) ∧ w1.trace = w.trace ++ new ∧
      steps new = [.enter_downloadFile url filePath, .leave_downloadFile r] := by
  rcases downloadFile_cases env url filePath w with h | ⟨a, h⟩ | ⟨a, b, h⟩ | ⟨a, b, c, d, h⟩
  all_goals
    refine ⟨_, _, _, h, rfl, ?_⟩
    simp [isStep, steps_loopEvents]

/-- A call of `executeCommand` adds its entry, events that are no steps, and its return. -/
theorem executeCommand_summary (env : Env) (command : Bytes) (w : World) :
    ∃ r w1 new, executeCommand env command w = (r, w1) ∧ w1.trace = w.trace ++ new ∧
      steps new = [.enter_executeCommand command, .leave_executeCommand r] := by
  rcases executeCommand_cases env command w with h | ⟨a, b, h⟩
  all_goals
    refine ⟨_, _, _, h, rfl, ?_⟩
    simp [isStep]

theorem c_str_createEnvCommand :
    c_str (lit "conda create -n cabm python=3.10 -y")
      = lit "conda create -n cabm python=3.10 -y" := by decide

theorem c_str_installReqCommand :
    c_str (lit "cmd /C \"conda activate cabm && pip install -r requirements.txt\"")
      = lit "cmd /C \"conda activate cabm && pip install -r requirements.txt\"" := by decide

theorem installCommand_eq :
    installerPath ++ lit " /S /RegisterPython=0 /AddToPath=0 /InstallationType=JustMe"
      = lit "miniforge_installer.exe /S /RegisterPython=0 /AddToPath=0 /InstallationType=JustMe" := by
  decide

/-- The steps of lines 98-122 of `install` are those of `install_environment_steps`. -/
theorem install_environment_run (env : Env) (useLocalPython : Bool) (w : World) :
    ∃ r3 r4 new, (install_environment env useLocalPython w).trace = w.trace ++ new ∧
      steps new = install_environment_steps useLocalPython r3 r4 ∧
      new.getLast? = (install_environment_steps useLocalPython r3 r4).getLast? := by
  cases useLocalPython
  · simp only [install_environment, Bool.not_false, if_true, c_str_createEnvCommand,
      c_str_installReqCommand]
    obtain ⟨r3, w1, n1, h1, t1, s1⟩ :=
      executeCommand_summary env (lit "conda create -n cabm python=3.10 -y")
        (cout (lit "Creating Python 3.10 environment...") w)
    rw [h1]
    cases r3
    · refine ⟨false, false, [.cout (lit "Creating Python 3.10 environment...")] ++ n1 ++
        [.cout (lit "Failed to create Python environment")], ?_, ?_, ?_⟩
      · simp [t1]
      · simp [s1, isStep, install_environment_steps]
      · rw [List.getLast?_concat]; simp [install_environment_steps]
    · obtain ⟨r4, w2, n2, h2, t2, s2⟩ :=
        executeCommand_summary env
          (lit "cmd /C \"conda activate cabm && pip install -r requirements.txt\"")
          (cout (lit "Installing requirements...") w1)
      simp only [Bool.not_true, Bool.false_eq_true, if_false]
      rw [h2]
      cases r4
      · refine ⟨true, false, [.cout (lit "Creating Python 3.10 environment...")] ++ n1 ++
          [.cout (lit "Installing requirements...")] ++ n2 ++
          [.cout (lit "Failed to install requirements")], ?_, ?_, ?_⟩
        · simp [t1, t2]
        · simp [s1, s2, isStep, install_environment_steps]
        · rw [List.getLast?_concat]; simp [install_environment_steps]
      · refine ⟨true, true, [.cout (lit "Creating Python 3.10 environment...")] ++ n1 ++
          [.cout (lit "Installing requirements...")] ++ n2 ++
          [.cout (lit "Installation completed successfully!")], ?_, ?_, ?_⟩
        · simp [t1, t2]
        · simp [s1, s2, isStep, install_environment_steps]
        · rw [List.getLast?_concat]; simp [install_environment_steps]
  · simp only [install_environment, Bool.not_true, Bool.false_eq_true, if_false]
    obtain ⟨r3, w1, n1, h1, t1, s1⟩ :=
      executeCommand_summary env (lit "pip install -r requirements.txt")
        (cout (lit "Installing requirements using local Python...") w)
    rw [h1]
    cases r3
    · refine ⟨false, false, [.cout (lit "Installing requirements using local Python...")] ++ n1 ++
        [.cout (lit "Failed to install requirements")], ?_, ?_, ?_⟩
      · simp [t1]
      · simp [s1, isStep, install_environment_steps]
      · rw [List.getLast?_concat]; simp [install_environment_steps]
    · refine ⟨true, false, [.cout (lit "Installing requirements using local Python...")] ++ n1 ++
        [.cout (lit "Installation completed successfully!")], ?_, ?_, ?_⟩
      · simp [t1]
      · simp [s1, isStep, install_environment_steps]
      · rw [List.getLast?_concat]; simp [install_environment_steps]

/-- The steps of `install` are those of `install_steps`, for what its calls return. -/
theorem install_run (env : Env) (skipConda useLocalPython : Bool) (w : World) :
    ∃ r1 r2 r3 r4 new, (install env skipConda useLocalPython w).trace = w.trace ++ new ∧
      steps new = install_steps skipConda useLocalPython r1 r2 r3 r4 ∧
      new.getLast? = (install_steps skipConda useLocalPython r1 r2 r3 r4).getLast? := by
  by_cases hc : (!skipConda && !useLocalPython) = true
  · simp only [install, hc, if_true, installCommand_eq]
    obtain ⟨r1, w1, n1, h1, t1, s1⟩ :=
      downloadFile_summary env miniforgeUrl installerPath (cout (lit "Downloading Miniforge...") w)
    rw [h1]
    cases r1
    · refine ⟨false, false, false, false, [.cout (lit "Downloading Miniforge...")] ++ n1 ++
        [.cout (lit "Failed to download Miniforge")], ?_, ?_, ?_⟩
      · simp [t1]
      · simp [s1, isStep, install_steps, hc]
      · rw [List.getLast?_concat]; simp [install_steps, hc]
    · obtain ⟨r2, w2, n2, h2, t2, s2⟩ :=
        executeCommand_summary env
          (lit "miniforge_installer.exe /S /RegisterPython=0 /AddToPath=0 /InstallationType=JustMe")
          (cout (lit "Installing Miniforge...") w1)
      simp only [Bool.not_true, Bool.false_eq_true, if_false]
      rw [h2]
      cases r2
      · refine ⟨true, false, false, false, [.cout (lit "Downloading Miniforge...")] ++ n1 ++
          [.cout (lit "Installing Miniforge...")] ++ n2 ++
          [.cout (lit "Failed to install Miniforge")], ?_, ?_, ?_⟩
        · simp [t1, t2]
        · simp [s1, s2, isStep, install_steps, hc]
        · rw [List.getLast?_concat]; simp [install_steps, hc]
      · obtain ⟨r3, r4, n3, t3, s3, g3⟩ := install_environment_run env useLocalPython w2
        refine ⟨true, true, r3, r4, [.cout (lit "Downloading Miniforge...")] ++ n1 ++
          [.cout (lit "Installing Miniforge...")] ++ n2 ++ n3, ?_, ?_, ?_⟩
        · simp [t1, t2, t3]
        · simp [s1, s2, s3, isStep, install_steps, hc]
        · simp only [install_steps, hc, if_true, Bool.not_true, Bool.false_eq_true, if_false,
            List.getLast?_append, g3]
          cases h : (install_environment_steps useLocalPython r3 r4).getLast? with
          | none => cases useLocalPython <;> cases r3 <;> cases r4 <;>
              simp [install_environment_steps] at h
          | some e => simp
  · obtain ⟨r3, r4, n3, t3, s3, g3⟩ := install_environment_run env useLocalPython w
    refine ⟨false, false, r3, r4, n3, ?_, ?_, ?_⟩
    · simp only [install, hc]
      simpa using t3
    · simp only [install_steps, hc]
      simpa using s3
    · simp only [install_steps, hc]
      simpa using g3

/-! ## The loops of `main` -/

theorem main_flags_eq (argv : List Bytes) (n i : Nat) (a b : Bool) (h : n = argv.length - i) :
    main_flags argv n i (a, b)
      = (a || decide (lit "--use-local-conda" ∈ argv.drop i),
         b || decide (lit "--use-local-python" ∈ argv.drop i)) := by
  induction n generalizing i a b with
  | zero =>
    have : argv.drop i = [] := List.drop_eq_nil_of_le (by omega)
    simp [main_flags, this]
  | succ n ih =>
    have hi : i < argv.length := by omega
    have hd : argv.drop i = argv[i] :: argv.drop (i + 1) := List.drop_eq_getElem_cons hi
    have hg : argv.getD i [] = argv[i] := by simp [List.getD_eq_getElem?_getD, hi]
    rw [main_flags]
    simp only [hg]
    rw [ih (i + 1) _ _ (by omega), hd]
    generalize argv[i] = x
    generalize List.drop (i + 1) argv = rest
    have hne : lit "--use-local-conda" ≠ lit "--use-local-python" := by decide
    by_cases h1 : x = lit "--use-local-conda"
    · subst h1
      simp [hne, hne.symm]
    · by_cases h2 : x = lit "--use-local-python"
      · subst h2
        simp [hne, hne.symm]
      · simp [h1, h2, Ne.symm h1, Ne.symm h2]

theorem joinWithSpaces_cons (a : Bytes) (l : List Bytes) :
    joinWithSpaces (a :: l) = a ++ spaced l := by
  induction l generalizing a with
  | nil => simp [joinWithSpaces, spaced]
  | cons b l ih => simp [joinWithSpaces, spaced, ih]

theorem main_userCmd_spaced (argv : List Bytes) (n i : Nat) (acc : Bytes)
    (h : n = argv.length - i) (hi2 : 2 < i) :
    main_userCmd argv n i acc = acc ++ spaced (argv.drop i) := by
  induction n generalizing i acc with
  | zero =>
    have : argv.drop i = [] := List.drop_eq_nil_of_le (by omega)
    simp [main_userCmd, this, spaced]
  | succ n ih =>
    have hi : i < argv.length := by omega
    have hd : argv.drop i = argv[i] :: argv.drop (i + 1) := List.drop_eq_getElem_cons hi
    have hg : argv.getD i [] = argv[i] := by simp [List.getD_eq_getElem?_getD, hi]
    rw [main_userCmd]
    simp only [hg, hi2, gt_iff_lt, if_true]
    rw [ih (i + 1) _ (by omega) (by omega), hd]
    generalize argv[i] = x
    generalize List.drop (i + 1) argv = rest
    simp [spaced]

theorem main_userCmd_eq (argv : List Bytes) (h : 2 < argv.length) :
    main_userCmd argv (argv.length - 2) 2 [] = joinWithSpaces (argv.drop 2) := by
  have hd : argv.drop 2 = argv[2] :: argv.drop 3 := List.drop_eq_getElem_cons h
  have hg : argv.getD 2 [] = argv[2] := by simp [List.getD_eq_getElem?_getD, h]
  obtain ⟨n, hn⟩ : ∃ n, argv.length - 2 = n + 1 := ⟨argv.length - 3, by omega⟩
  rw [hn, main_userCmd]
  simp only [hg, gt_iff_lt, lt_self_iff_false, if_false, List.nil_append]
  rw [main_userCmd_spaced argv n 3 _ (by omega) (by omega), hd, joinWithSpaces_cons]

/-! ## `main` -/

theorem foldl_cout_trace (lines : List Bytes) (w : World) :
    (lines.foldl (fun w line => cout line w) w).trace = w.trace ++ lines.map Event.cout ∧
    (lines.foldl (fun w line => cout line w) w).files = w.files := by
  induction lines generalizing w with
  | nil => simp
  | cons l lines ih => simp [ih]

theorem printHelp_trace (w : World) : (printHelp w).trace = w.trace ++ helpText.map Event.cout :=
  (foldl_cout_trace helpText w).1

theorem printHelp_files (w : World) : (printHelp w).files = w.files :=
  (foldl_cout_trace helpText w).2

theorem argv_one (argv : List Bytes) (c : Bytes) (h : argv[1]? = some c) :
    ¬ argv.length < 2 ∧ argv.getD 1 [] = c := by
  match argv, h with
  | a :: b :: rest, h => simp at h; simp [h]

theorem main_install (env : Env) (argv : List Bytes) (w : World)
    (h : argv[1]? = some (lit "install")) :
    main env argv w
      = (0, install env (decide (lit "--use-local-conda" ∈ argv.drop 2))
              (decide (lit "--use-local-python" ∈ argv.drop 2)) w) := by
  obtain ⟨h1, h2⟩ := argv_one argv _ h
  simp [main, h1, h, main_flags_eq argv (argv.length - 2) 2 false false rfl]

theorem calls_steps (tr : List Event) : calls (steps tr) = calls tr := by
  induction tr with
  | nil => rfl
  | cons e tr ih =>
    cases e <;> simp_all [calls, steps, isCall, isStep, List.filter_cons]

theorem reports_steps (tr : List Event) : reports (steps tr) = reports tr := by
  induction tr with
  | nil => rfl
  | cons e tr ih =>
    cases e <;> simp_all [reports, steps, isStep, List.filter_cons, List.filterMap_cons]

/-! ## The claims -/

/-- C1: when the first argument is absent, or is neither `install` nor `use`,
or is `use` with nothing after it, `main` returns 0 having done nothing but
print the help text: no call of `downloadFile`, no call of `executeCommand`,
no file touched. -/
theorem main_prints_help (env : Env) (argv : List Bytes) (w : World)
    (h : argv[1]? = none ∨
         (argv[1]? ≠ some (lit "install") ∧ argv[1]? ≠ some (lit "use")) ∨
         (argv[1]? = some (lit "use") ∧ argv.length = 2)) :
    (main env argv w).1 = 0 ∧
    performed w (main env argv w).2 = helpText.map Event.cout ∧
    calls (performed w (main env argv w).2) = [] ∧
    (main env argv w).2.files = w.files := by
  have key : main env argv w = (0, printHelp w) := by
    by_cases hlen : argv.length < 2
    · simp [main, hlen]
    · obtain ⟨c, hc⟩ : ∃ c, argv[1]? = some c :=
        ⟨argv[1], List.getElem?_eq_getElem (by omega)⟩
      rcases h with h | ⟨h1, h2⟩ | ⟨h1, h2⟩
      · simp [hc] at h
      · rw [hc] at h1 h2
        simp only [ne_eq, Option.some.injEq] at h1 h2
        simp [main, hlen, hc, h1, h2]
      · have hne : lit "use" ≠ lit "install" := by decide
        simp [main, hlen, h1, h2, hne]
  have hp : performed w (printHelp w) = helpText.map Event.cout :=
    performed_append _ _ _ (printHelp_trace w)
  rw [key]
  refine ⟨rfl, hp, ?_, printHelp_files w⟩
  simp only [hp]
  decide

/-- Witness: `main.exe status` prints the help text and calls nothing. -/
theorem main_prints_help_witness :
    ([lit "main.exe", lit "status"][1]? = none ∨
      ([lit "main.exe", lit "status"][1]? ≠ some (lit "install") ∧
        [lit "main.exe", lit "status"][1]? ≠ some (lit "use")) ∨
      ([lit "main.exe", lit "status"][1]? = some (lit "use") ∧
        [lit "main.exe", lit "status"].length = 2)) ∧
    ((main envOk [lit "main.exe", lit "status"] w0).1 = 0 ∧
      performed w0 (main envOk [lit "main.exe", lit "status"] w0).2 = helpText.map Event.cout ∧
      calls (performed w0 (main envOk [lit "main.exe", lit "status"] w0).2) = [] ∧
      (main envOk [lit "main.exe", lit "status"] w0).2.files = w0.files) :=
  ⟨by decide, main_prints_help envOk [lit "main.exe", lit "status"] w0 (by decide)⟩

theorem performed_main_install (env : Env) (argv : List Bytes) (w : World)
    (h : argv[1]? = some (lit "install")) :
    performed w (main env argv w).2
      = performed w (install env (decide (lit "--use-local-conda" ∈ argv.drop 2))
          (decide (lit "--use-local-python" ∈ argv.drop 2)) w) := by
  rw [main_install env argv w h]

/-- What is needed of a run of `install`: its calls, its reports and its last
event are those of `install_steps`. -/
theorem install_observed (env : Env) (skipConda useLocalPython : Bool) (w : World) :
    ∃ r1 r2 r3 r4,
      steps (performed w (install env skipConda useLocalPython w))
        = install_steps skipConda useLocalPython r1 r2 r3 r4 ∧
      calls (performed w (install env skipConda useLocalPython w))
        = calls (install_steps skipConda useLocalPython r1 r2 r3 r4) ∧
      reports (performed w (install env skipConda useLocalPython w))
        = reports (install_steps skipConda useLocalPython r1 r2 r3 r4) ∧
      (performed w (install env skipConda useLocalPython w)).getLast?
        = (install_steps skipConda useLocalPython r1 r2 r3 r4).getLast? := by
  obtain ⟨r1, r2, r3, r4, new, ht, hs, hl⟩ := install_run env skipConda useLocalPython w
  have hp := performed_append _ _ _ ht
  refine ⟨r1, r2, r3, r4, ?_, ?_, ?_, ?_⟩
  · rw [hp, hs]
  · rw [hp, ← hs, calls_steps]
  · rw [hp, ← hs, reports_steps]
  · rw [hp, hl]

/-- C2: `install` with neither `--use-local-conda` nor `--use-local-python`
among the remaining arguments leaves both flags false and, when every call
reports success, calls in this order `downloadFile` of the Miniforge URL to
`miniforge_installer.exe`, `executeCommand` of the silent installer command, of
`conda create -n cabm python=3.10 -y` and of the `conda activate cabm && pip
install` command, and ends by printing the success message. -/
theorem main_install_full (env : Env) (argv : List Bytes) (w : World)
    (h1 : argv[1]? = some (lit "install"))
    (h2 : lit "--use-local-conda" ∉ argv.drop 2)
    (h3 : lit "--use-local-python" ∉ argv.drop 2)
    (hok : ∀ r ∈ reports (performed w (main env argv w).2), r = true) :
    main_flags argv (argv.length - 2) 2 (false, false) = (false, false) ∧
    calls (performed w (main env argv w).2)
      = [.enter_downloadFile miniforgeUrl (lit "miniforge_installer.exe"),
         .enter_executeCommand
           (lit "miniforge_installer.exe /S /RegisterPython=0 /AddToPath=0 /InstallationType=JustMe"),
         .enter_executeCommand (lit "conda create -n cabm python=3.10 -y"),
         .enter_executeCommand
           (lit "cmd /C \"conda activate cabm && pip install -r requirements.txt\"")] ∧
    (performed w (main env argv w).2).getLast?
      = some (.cout (lit "Installation completed successfully!")) := by
  refine ⟨by simp [main_flags_eq argv (argv.length - 2) 2 false false rfl, h2, h3], ?_⟩
  rw [performed_main_install env argv w h1] at hok ⊢
  simp only [h2, h3, decide_False] at hok ⊢
  obtain ⟨r1, r2, r3, r4, -, hc, hr, hl⟩ := install_observed env false false w
  rw [hc, hl]
  rw [hr] at hok
  cases r1 <;> cases r2 <;> cases r3 <;> cases r4 <;>
    first
    | exact absurd hok (by decide)
    | decide

/-- Witness: `main.exe install all` on a system where every call succeeds. -/
theorem main_install_full_witness :
    (argvInstallAll[1]? = some (lit "install") ∧
      lit "--use-local-conda" ∉ argvInstallAll.drop 2 ∧
      lit "--use-local-python" ∉ argvInstallAll.drop 2 ∧
      ∀ r ∈ reports (performed w0 (main envOk argvInstallAll w0).2), r = true) ∧
    (main_flags argvInstallAll (argvInstallAll.length - 2) 2 (false, false) = (false, false) ∧
      calls (performed w0 (main envOk argvInstallAll w0).2)
        = [.enter_downloadFile miniforgeUrl (lit "miniforge_installer.exe"),
           .enter_executeCommand
             (lit "miniforge_installer.exe /S /RegisterPython=0 /AddToPath=0 /InstallationType=JustMe"),
           .enter_executeCommand (lit "conda create -n cabm python=3.10 -y"),
           .enter_executeCommand
             (lit "cmd /C \"conda activate cabm && pip install -r requirements.txt\"")] ∧
      (performed w0 (main envOk argvInstallAll w0).2).getLast?
        = some (.cout (lit "Installation completed successfully!"))) :=
  ⟨⟨by decide, by decide, by decide, by decide⟩,
    main_install_full envOk argvInstallAll w0 (by decide) (by decide) (by decide) (by decide)⟩

/-- C3: `install` with `--use-local-conda` somewhere among the remaining
arguments and `--use-local-python` nowhere never calls `downloadFile` and never
runs the Miniforge installer command; its first call is `executeCommand` of
`conda create -n cabm python=3.10 -y` and, when that reports success, the next
(and last) is `executeCommand` of the `conda activate cabm && pip install`
command. -/
theorem main_install_skip_conda (env : Env) (argv : List Bytes) (w : World)
    (h1 : argv[1]? = some (lit "install"))
    (h2 : lit "--use-local-conda" ∈ argv.drop 2)
    (h3 : lit "--use-local-python" ∉ argv.drop 2) :
    (∀ url filePath, Event.enter_downloadFile url filePath ∉ performed w (main env argv w).2) ∧
    Event.enter_executeCommand
        (lit "miniforge_installer.exe /S /RegisterPython=0 /AddToPath=0 /InstallationType=JustMe")
      ∉ performed w (main env argv w).2 ∧
    calls (performed w (main env argv w).2)
      = .enter_executeCommand (lit "conda create -n cabm python=3.10 -y") ::
          (if (reports (performed w (main env argv w).2)).head? = some true then
            [.enter_executeCommand
              (lit "cmd /C \"conda activate cabm && pip install -r requirements.txt\"")]
           else []) := by
  rw [performed_main_install env argv w h1]
  simp only [h2, h3, decide_True, decide_False]
  obtain ⟨r1, r2, r3, r4, -, hc, hr, -⟩ := install_observed env true false w
  have key : calls (performed w (install env true false w))
      = .enter_executeCommand (lit "conda create -n cabm python=3.10 -y") ::
          (if (reports (performed w (install env true false w))).head? = some true then
            [.enter_executeCommand
              (lit "cmd /C \"conda activate cabm && pip install -r requirements.txt\"")]
           else []) := by
    rw [hc, hr]
    cases r1 <;> cases r2 <;> cases r3 <;> cases r4 <;> decide
  refine ⟨?_, ?_, key⟩
  · intro url filePath hmem
    have : Event.enter_downloadFile url filePath
        ∈ calls (performed w (install env true false w)) := by
      simp [calls, isCall, hmem]
    rw [key] at this
    split at this <;> simp at this
  · intro hmem
    have : Event.enter_executeCommand
        (lit "miniforge_installer.exe /S /RegisterPython=0 /AddToPath=0 /InstallationType=JustMe")
        ∈ calls (performed w (install env true false w)) := by
      simp [calls, isCall, hmem]
    rw [key] at this
    have n1 : lit "miniforge_installer.exe /S /RegisterPython=0 /AddToPath=0 /InstallationType=JustMe"
        ≠ lit "conda create -n cabm python=3.10 -y" := by decide
    have n2 : lit "miniforge_installer.exe /S /RegisterPython=0 /AddToPath=0 /InstallationType=JustMe"
        ≠ lit "cmd /C \"conda activate cabm && pip install -r requirements.txt\"" := by decide
    split at this <;> simp [n1, n2] at this

/-- Witness: `main.exe install all --use-local-conda`. -/
theorem main_install_skip_conda_witness :
    (argvSkipConda[1]? = some (lit "install") ∧
      lit "--use-local-conda" ∈ argvSkipConda.drop 2 ∧
      lit "--use-local-python" ∉ argvSkipConda.drop 2) ∧
    ((∀ url filePath,
        Event.enter_downloadFile url filePath ∉ performed w0 (main envOk argvSkipConda w0).2) ∧
      Event.enter_executeCommand
          (lit "miniforge_installer.exe /S /RegisterPython=0 /AddToPath=0 /InstallationType=JustMe")
        ∉ performed w0 (main envOk argvSkipConda w0).2 ∧
      calls (performed w0 (main envOk argvSkipConda w0).2)
        = .enter_executeCommand (lit "conda create -n cabm python=3.10 -y") ::
            (if (reports (performed w0 (main envOk argvSkipConda w0).2)).head? = some true then
              [.enter_executeCommand
                (lit "cmd /C \"conda activate cabm && pip install -r requirements.txt\"")]
             else [])) :=
  ⟨⟨by decide, by decide, by decide⟩,
    main_install_skip_conda envOk argvSkipConda w0 (by decide) (by decide) (by decide)⟩

/-- C4: `install` with `--use-local-python` somewhere among the remaining
arguments, with or without `--use-local-conda`, calls `downloadFile` never and
`executeCommand` exactly once, with `pip install -r requirements.txt`; the
Miniforge installer, `conda create` and `conda activate` commands are not among
its calls. -/
theorem main_install_local_python (env : Env) (argv : List Bytes) (w : World)
    (h1 : argv[1]? = some (lit "install"))
    (h3 : lit "--use-local-python" ∈ argv.drop 2) :
    calls (performed w (main env argv w).2)
      = [.enter_executeCommand (lit "pip install -r requirements.txt")] ∧
    (∀ url filePath, Event.enter_downloadFile url filePath ∉ performed w (main env argv w).2) ∧
    (∀ command, Event.enter_executeCommand command ∈ performed w (main env argv w).2 →
      command = lit "pip install -r requirements.txt") := by
  rw [performed_main_install env argv w h1]
  simp only [h3, decide_True]
  generalize decide (lit "--use-local-conda" ∈ argv.drop 2) = skipConda
  obtain ⟨r1, r2, r3, r4, -, hc, -, -⟩ := install_observed env skipConda true w
  have key : calls (performed w (install env skipConda true w))
      = [.enter_executeCommand (lit "pip install -r requirements.txt")] := by
    rw [hc]
    cases skipConda <;> cases r1 <;> cases r2 <;> cases r3 <;> cases r4 <;> decide
  refine ⟨key, ?_, ?_⟩
  · intro url filePath hmem
    have : Event.enter_downloadFile url filePath
        ∈ calls (performed w (install env skipConda true w)) := by
      simp [calls, isCall, hmem]
    rw [key] at this
    simp at this
  · intro command hmem
    have : Event.enter_executeCommand command
        ∈ calls (performed w (install env skipConda true w)) := by
      simp [calls, isCall, hmem]
    rw [key] at this
    simpa using this

/-- Witness: `main.exe install --use-local-conda --use-local-python`. -/
theorem main_install_local_python_witness :
    (argvLocalPython[1]? = some (lit "install") ∧
      lit "--use-local-python" ∈ argvLocalPython.drop 2) ∧
    (calls (performed w0 (main envOk argvLocalPython w0).2)
        = [.enter_executeCommand (lit "pip install -r requirements.txt")] ∧
      (∀ url filePath,
        Event.enter_downloadFile url filePath ∉ performed w0 (main envOk argvLocalPython w0).2) ∧
      (∀ command,
        Event.enter_executeCommand command ∈ performed w0 (main envOk argvLocalPython w0).2 →
        command = lit "pip install -r requirements.txt")) :=
  ⟨⟨by decide, by decide⟩,
    main_install_local_python envOk argvLocalPython w0 (by decide) (by decide)⟩

theorem mem_afterFailures (l pre post : List Event) (e : Event)
    (h : l = pre ++ e :: post) (hf : isFailure e = true) : post ∈ afterFailures l := by
  subst h
  induction pre with
  | nil => simp [afterFailures, hf]
  | cons x pre ih =>
    by_cases hx : isFailure x = true <;> simp [afterFailures, hx, ih]

theorem mem_abortPoints (l pre post : List Event) (c r : Event)
    (h : l = pre ++ c :: r :: post) (hf : isFailure r = true) :
    (c, post) ∈ abortPoints l := by
  subst h
  induction pre with
  | nil => simp [abortPoints, hf]
  | cons x pre ih =>
    cases pre with
    | nil =>
      by_cases hc : isFailure c = true
      · simp only [List.singleton_append, abortPoints, hc, if_true]
        exact List.mem_cons_of_mem _ (by simpa using ih)
      · simp only [List.singleton_append, abortPoints, hc]
        simpa using ih
    | cons y pre =>
      by_cases hy : isFailure y = true
      · simp only [List.cons_append, abortPoints, hy, if_true]
        exact List.mem_cons_of_mem _ (by simpa using ih)
      · simp only [List.cons_append, abortPoints, hy]
        simpa using ih

theorem isFailure_isStep (e : Event) (h : isFailure e = true) : isStep e = true := by
  cases e <;> simp_all [isFailure, isStep]

/-- In the steps of `install`: after a failing return no call follows, a run
with a failing return does not print the success message, and a run in which
`downloadFile` fails does not run the installer command. -/
theorem install_steps_stop (skipConda useLocalPython r1 r2 r3 r4 : Bool) :
    (∀ q ∈ afterFailures (install_steps skipConda useLocalPython r1 r2 r3 r4), calls q = []) ∧
    ((install_steps skipConda useLocalPython r1 r2 r3 r4).any isFailure = true →
      Event.cout (lit "Installation completed successfully!")
        ∉ install_steps skipConda useLocalPython r1 r2 r3 r4) ∧
    (Event.leave_downloadFile false ∈ install_steps skipConda useLocalPython r1 r2 r3 r4 →
      Event.enter_executeCommand
          (lit "miniforge_installer.exe /S /RegisterPython=0 /AddToPath=0 /InstallationType=JustMe")
        ∉ install_steps skipConda useLocalPython r1 r2 r3 r4) := by
  cases skipConda <;> cases useLocalPython <;> cases r1 <;> cases r2 <;> cases r3 <;>
    cases r4 <;> decide

/-- In the steps of `install` every abort point is one of `abortTable`, and
what follows it is the message of the table and nothing else. -/
theorem install_steps_abort (skipConda useLocalPython r1 r2 r3 r4 : Bool) :
    ∀ x ∈ abortPoints (install_steps skipConda useLocalPython r1 r2 r3 r4),
      x ∈ abortTable.map (fun cm => (cm.1, [Event.cout cm.2])) := by
  cases skipConda <;> cases useLocalPython <;> cases r1 <;> cases r2 <;> cases r3 <;>
    cases r4 <;> decide

/-- C6: for every pair of flags and every outcome of the steps, `install` stops
at the first call that reports failure: after a `downloadFile` or
`executeCommand` that returned `false` no call of either follows, when
`downloadFile` returned `false` the installer command is not run, and the
success message is not printed. -/
theorem install_stops_at_failure (env : Env) (skipConda useLocalPython : Bool) (w : World)
    (pre post : List Event) (e : Event)
    (hsplit : performed w (install env skipConda useLocalPython w) = pre ++ e :: post)
    (hfail : isFailure e = true) :
    calls post = [] ∧
    (e = .leave_downloadFile false →
      Event.enter_executeCommand
          (lit "miniforge_installer.exe /S /RegisterPython=0 /AddToPath=0 /InstallationType=JustMe")
        ∉ performed w (install env skipConda useLocalPython w)) ∧
    Event.cout (lit "Installation completed successfully!")
      ∉ performed w (install env skipConda useLocalPython w) := by
  obtain ⟨r1, r2, r3, r4, hs, -, -, -⟩ := install_observed env skipConda useLocalPython w
  obtain ⟨hA, hB, hC⟩ := install_steps_stop skipConda useLocalPython r1 r2 r3 r4
  have hstep : isStep e = true := isFailure_isStep e hfail
  have hs2 : install_steps skipConda useLocalPython r1 r2 r3 r4
      = steps pre ++ e :: steps post := by
    rw [← hs, hsplit]; simp [hstep]
  have hmem : e ∈ install_steps skipConda useLocalPython r1 r2 r3 r4 := by
    rw [hs2]; simp
  have stepMem : ∀ x, isStep x = true →
      x ∈ performed w (install env skipConda useLocalPython w) →
      x ∈ install_steps skipConda useLocalPython r1 r2 r3 r4 := by
    intro x hx hin
    rw [← hs]
    simp [steps, hin, hx]
  refine ⟨?_, ?_, ?_⟩
  · rw [← calls_steps]
    exact hA _ (mem_afterFailures _ _ _ _ hs2 hfail)
  · intro he hin
    exact hC (he ▸ hmem) (stepMem _ rfl hin)
  · intro hin
    exact hB (List.any_eq_true.mpr ⟨e, hmem, hfail⟩) (stepMem _ rfl hin)

/-- Witness: the download fails because no session can be opened. -/
theorem install_stops_at_failure_witness :
    (performed w0 (install envFail false false w0)
        = [.cout (lit "Downloading Miniforge..."),
           .enter_downloadFile miniforgeUrl installerPath, .InternetOpen none] ++
          .leave_downloadFile false :: [.cout (lit "Failed to download Miniforge")] ∧
      isFailure (.leave_downloadFile false) = true) ∧
    (calls [Event.cout (lit "Failed to download Miniforge")] = [] ∧
      (Event.leave_downloadFile false = .leave_downloadFile false →
        Event.enter_executeCommand
            (lit "miniforge_installer.exe /S /RegisterPython=0 /AddToPath=0 /InstallationType=JustMe")
          ∉ performed w0 (install envFail false false w0)) ∧
      Event.cout (lit "Installation completed successfully!")
        ∉ performed w0 (install envFail false false w0)) :=
  ⟨⟨by decide, rfl⟩,
    install_stops_at_failure envFail false false w0
      [.cout (lit "Downloading Miniforge..."),
       .enter_downloadFile miniforgeUrl installerPath, .InternetOpen none]
      [.cout (lit "Failed to download Miniforge")] (.leave_downloadFile false)
      (by decide) rfl⟩

/-- C10, as stated, fails: the abort after the requirements command of the
conda environment (line 110) and the abort after the requirements command of
the local Python (line 116) are two abort points, and both print
`Failed to install requirements`. -/
theorem requirements_abort_messages_coincide :
    steps (performed w0 (install envSecondFails true false w0))
      = [.cout (lit "Creating Python 3.10 environment..."),
         .enter_executeCommand (lit "conda create -n cabm python=3.10 -y"),
         .leave_executeCommand true,
         .cout (lit "Installing requirements..."),
         .enter_executeCommand
           (lit "cmd /C \"conda activate cabm && pip install -r requirements.txt\""),
         .leave_executeCommand false,
         .cout (lit "Failed to install requirements")] ∧
    steps (performed w0 (install envFail false true w0))
      = [.cout (lit "Installing requirements using local Python..."),
         .enter_executeCommand (lit "pip install -r requirements.txt"),
         .leave_executeCommand false,
         .cout (lit "Failed to install requirements")] := by
  decide

/-- C10, amended: at every abort point of `install` (a call followed by its
failing return) the flow prints one failure message and does nothing more; two
abort points print the same message exactly when they are the same call or are
both a requirements installation. -/
theorem install_abort_message (env1 env2 : Env) (skipConda1 useLocalPython1 : Bool)
    (skipConda2 useLocalPython2 : Bool) (w1 w2 : World)
    (pre1 post1 pre2 post2 : List Event) (c1 r1 c2 r2 : Event)
    (h1 : steps (performed w1 (install env1 skipConda1 useLocalPython1 w1))
            = pre1 ++ c1 :: r1 :: post1)
    (f1 : isFailure r1 = true)
    (h2 : steps (performed w2 (install env2 skipConda2 useLocalPython2 w2))
            = pre2 ++ c2 :: r2 :: post2)
    (f2 : isFailure r2 = true) :
    ∃ m1 m2, post1 = [.cout m1] ∧ post2 = [.cout m2] ∧
      (m1 = m2 ↔ c1 = c2 ∨ (isRequirementsInstall c1 ∧ isRequirementsInstall c2)) := by
  obtain ⟨a1, a2, a3, a4, hs1, -, -, -⟩ := install_observed env1 skipConda1 useLocalPython1 w1
  obtain ⟨b1, b2, b3, b4, hs2, -, -, -⟩ := install_observed env2 skipConda2 useLocalPython2 w2
  have m1 := install_steps_abort skipConda1 useLocalPython1 a1 a2 a3 a4 _
    (mem_abortPoints _ _ _ _ _ (hs1 ▸ h1) f1)
  have m2 := install_steps_abort skipConda2 useLocalPython2 b1 b2 b3 b4 _
    (mem_abortPoints _ _ _ _ _ (hs2 ▸ h2) f2)
  simp only [abortTable, List.map_cons, List.map_nil, List.mem_cons, Prod.mk.injEq,
    List.mem_singleton, List.not_mem_nil, or_false] at m1 m2
  rcases m1 with ⟨rfl, rfl⟩ | ⟨rfl, rfl⟩ | ⟨rfl, rfl⟩ | ⟨rfl, rfl⟩ | ⟨rfl, rfl⟩ <;>
    rcases m2 with ⟨rfl, rfl⟩ | ⟨rfl, rfl⟩ | ⟨rfl, rfl⟩ | ⟨rfl, rfl⟩ | ⟨rfl, rfl⟩ <;>
    refine ⟨_, _, rfl, rfl, ?_⟩ <;>
    unfold isRequirementsInstall <;>
    decide

/-- Witness: a failed download and a failed requirements installation
with the local Python print different messages. -/
theorem install_abort_message_witness :
    (steps (performed w0 (install envFail false false w0))
        = [.cout (lit "Downloading Miniforge...")] ++
          .enter_downloadFile miniforgeUrl installerPath :: .leave_downloadFile false ::
            [.cout (lit "Failed to download Miniforge")] ∧
      isFailure (.leave_downloadFile false) = true ∧
      steps (performed w0 (install envFail false true w0))
        = [.cout (lit "Installing requirements using local Python...")] ++
          .enter_executeCommand (lit "pip install -r requirements.txt") ::
            .leave_executeCommand false :: [.cout (lit "Failed to install requirements")] ∧
      isFailure (.leave_executeCommand false) = true) ∧
    ∃ m1 m2, [Event.cout (lit "Failed to download Miniforge")] = [.cout m1] ∧
      [Event.cout (lit "Failed to install requirements")] = [.cout m2] ∧
      (m1 = m2 ↔
        Event.enter_downloadFile miniforgeUrl installerPath
            = .enter_executeCommand (lit "pip install -r requirements.txt") ∨
          (isRequirementsInstall (.enter_downloadFile miniforgeUrl installerPath) ∧
            isRequirementsInstall
              (.enter_executeCommand (lit "pip install -r requirements.txt")))) :=
  ⟨⟨by decide, rfl, by decide, rfl⟩,
    install_abort_message envFail envFail false false false true w0 w0
      [.cout (lit "Downloading Miniforge...")] [.cout (lit "Failed to download Miniforge")]
      [.cout (lit "Installing requirements using local Python...")]
      [.cout (lit "Failed to install requirements")]
      (.enter_downloadFile miniforgeUrl installerPath) (.leave_downloadFile false)
      (.enter_executeCommand (lit "pip install -r requirements.txt"))
      (.leave_executeCommand false)
      (by decide) rfl (by decide) rfl⟩

/-! ## `executeCommand` and `downloadFile` -/

theorem c_str_of_no_nul (s : Bytes) (h : (0 : UInt8) ∉ s) : c_str s = s := by
  unfold c_str
  rw [List.takeWhile_eq_self_iff]
  intro b hb
  simpa using fun hb0 : b = 0 => h (hb0 ▸ hb)

theorem executeCommand_cmdLine_length (command : Bytes) :
    (executeCommand_cmdLine command).length ≤ 1023 := by
  simp [executeCommand_cmdLine, List.length_take]

theorem executeCommand_cmdLine_eq (command : Bytes) (h : (0 : UInt8) ∉ command) :
    executeCommand_cmdLine command
      = if command.length ≤ 1023 then command else command.take 1023 := by
  rw [executeCommand_cmdLine, c_str_of_no_nul command h]
  split
  · exact List.take_of_length_le (by assumption)
  · rfl

theorem executeCommand_commandLines (env : Env) (command : Bytes) (w : World) :
    commandLines (performed w (executeCommand env command w).2)
      = [executeCommand_cmdLine command] := by
  rcases executeCommand_cases env command w with h | ⟨a, b, h⟩ <;>
    rw [h, performed_append _ _ _ rfl] <;> simp [commandLines]

/-- C7: the command line `executeCommand` hands to process creation is the
command string itself when that is at most 1023 bytes long and otherwise its
first 1023 bytes, and is never longer than 1023 bytes.  The command string is a
C string: it holds no NUL byte. -/
theorem executeCommand_command_line (env : Env) (command : Bytes) (w : World)
    (hnul : (0 : UInt8) ∉ command) :
    commandLines (performed w (executeCommand env command w).2)
      = [if command.length ≤ 1023 then command else command.take 1023] ∧
    ∀ cmdLine ∈ commandLines (performed w (executeCommand env command w).2),
      cmdLine.length ≤ 1023 := by
  rw [executeCommand_commandLines, executeCommand_cmdLine_eq command hnul]
  refine ⟨rfl, ?_⟩
  intro cmdLine hmem
  rw [← executeCommand_cmdLine_eq command hnul] at hmem
  simp only [List.mem_singleton] at hmem
  rw [hmem]
  exact executeCommand_cmdLine_length command

/-- Witness: the command `pip install -r requirements.txt`. -/
theorem executeCommand_command_line_witness :
    (0 : UInt8) ∉ lit "pip install -r requirements.txt" ∧
    (commandLines
        (performed w0 (executeCommand envOk (lit "pip install -r requirements.txt") w0).2)
      = [if (lit "pip install -r requirements.txt").length ≤ 1023
          then lit "pip install -r requirements.txt"
          else (lit "pip install -r requirements.txt").take 1023] ∧
      ∀ cmdLine ∈ commandLines
          (performed w0 (executeCommand envOk (lit "pip install -r requirements.txt") w0).2),
        cmdLine.length ≤ 1023) :=
  ⟨by decide, executeCommand_command_line envOk (lit "pip install -r requirements.txt") w0
    (by decide)⟩

theorem held_acquire (live : List Resource) (e : Event) (tr : List Event) (r : Resource)
    (h : acquires e = some r) : held live (e :: tr) = held (r :: live) tr := by
  simp [held, h]

theorem held_skip (live : List Resource) (e : Event) (tr : List Event)
    (h1 : acquires e = none) (h2 : releases e = none) : held live (e :: tr) = held live tr := by
  simp [held, h1, h2]

theorem held_append_neutral (live : List Resource) (a b : List Event)
    (ha : ∀ e ∈ a, acquires e = none ∧ releases e = none) :
    held live (a ++ b) = held live b := by
  induction a with
  | nil => rfl
  | cons e a ih =>
    have h1 := ha e (by simp)
    have h2 := ih (fun x hx => ha x (by simp [hx]))
    simp only [List.cons_append, held, h1.1, h1.2]
    exact h2

theorem loopEvents_neutral (env : Env) (hConnect file : Handle)
    (reads : List (Bool × Bytes)) (tr : List Event) :
    ∀ e ∈ loopEvents env hConnect file reads tr, acquires e = none ∧ releases e = none := by
  induction reads generalizing tr with
  | nil => simp [loopEvents, acquires, releases]
  | cons r reads ih =>
    obtain ⟨ok, data⟩ := r
    by_cases h : (ok && decide ((List.take 1024 data).length > 0)) = true
    · rw [loopEvents, if_pos h]
      intro e he
      simp only [List.mem_cons] at he
      rcases he with rfl | rfl | he
      · simp [acquires, releases]
      · simp [acquires, releases]
      · exact ih _ e he
    · rw [loopEvents, if_neg h]
      simp [acquires, releases]

theorem filterMap_neutral {β : Type} (f : Event → Option β) (a : List Event)
    (ha : ∀ e ∈ a, f e = none) : a.filterMap f = [] := by
  induction a with
  | nil => rfl
  | cons e a ih =>
    simp [List.filterMap_cons, ha e (by simp), ih (fun x hx => ha x (by simp [hx]))]

/-- C8: on every way out of `downloadFile` each network handle and file handle
the call opened has been closed exactly once, after it was opened, and nothing
else has been closed: following the events of the call, every close is of a
handle open at that point and no handle is left open at the return; the
handles closed are those opened. -/
theorem downloadFile_releases_handles (env : Env) (url filePath : Bytes) (w : World) :
    held [] (performed w (downloadFile env url filePath w).2) = some [] ∧
    List.Perm (released (performed w (downloadFile env url filePath w).2))
      (acquired (performed w (downloadFile env url filePath w).2)) := by
  rcases downloadFile_cases env url filePath w with h | ⟨a, h⟩ | ⟨a, b, h⟩ | ⟨a, b, c, d, h⟩
  · rw [h, performed_append _ _ _ rfl]
    simp [held, acquires, releases, acquired, released]
  · rw [h, performed_append _ _ _ rfl]
    simp [held, acquires, releases, acquired, released]
  · rw [h, performed_append _ _ _ rfl]
    constructor
    · simp [held, acquires, releases]
    · simp only [acquired, released, List.filterMap_cons, acquires, releases,
        List.filterMap_nil]
      exact List.Perm.swap _ _ _
  · rw [h, performed_append _ _ _ rfl]
    generalize hL : loopEvents env b c (env.InternetReadFile b)
      (w.trace ++ [Event.enter_downloadFile url filePath, Event.InternetOpen (some a),
        Event.InternetOpenUrl a (c_str url) (some b),
        Event.fopen (c_str filePath) (some c)]) = L
    have hn : ∀ e ∈ L, acquires e = none ∧ releases e = none := by
      rw [← hL]; exact loopEvents_neutral env b c _ _
    constructor
    · have hlist : [Event.enter_downloadFile url filePath, Event.InternetOpen (some a),
            Event.InternetOpenUrl a (c_str url) (some b), Event.fopen (c_str filePath) (some c)] ++
            L ++
            [Event.fclose c d.isNone, Event.InternetCloseHandle b, Event.InternetCloseHandle a,
              Event.leave_downloadFile true]
          = Event.enter_downloadFile url filePath :: Event.InternetOpen (some a) ::
            Event.InternetOpenUrl a (c_str url) (some b) ::
            Event.fopen (c_str filePath) (some c) :: (L ++
            [Event.fclose c d.isNone, Event.InternetCloseHandle b, Event.InternetCloseHandle a,
              Event.leave_downloadFile true]) := by simp
      rw [hlist, held_skip [] (.enter_downloadFile url filePath) _ rfl rfl,
        held_acquire [] (.InternetOpen (some a)) _ (.internet a) rfl,
        held_acquire _ (.InternetOpenUrl a (c_str url) (some b)) _ (.internet b) rfl,
        held_acquire _ (.fopen (c_str filePath) (some c)) _ (.file c) rfl,
        held_append_neutral _ _ _ hn]
      simp [held, acquires, releases]
    · simp only [acquired, released, List.filterMap_append, List.filterMap_cons, acquires,
        releases, List.filterMap_nil,
        filterMap_neutral acquires _ (fun e he => (hn e he).1),
        filterMap_neutral releases _ (fun e he => (hn e he).2)]
      simp only [List.nil_append, List.append_nil, List.cons_append]
      have : [Resource.file c, Resource.internet b, Resource.internet a]
          = [Resource.internet a, Resource.internet b, Resource.file c].reverse := rfl
      rw [this]
      exact List.reverse_perm _

theorem responseChunks_length (reads : List (Bool × Bytes)) :
    ∀ c ∈ responseChunks reads, c.length ≤ 1024 := by
  induction reads with
  | nil => simp [responseChunks]
  | cons r reads ih =>
    obtain ⟨ok, data⟩ := r
    cases ok
    · simpa [responseChunks] using ih
    · by_cases h : (List.take 1024 data).length > 0
      · intro c hc
        rw [responseChunks, if_pos rfl, if_pos h] at hc
        simp only [List.mem_cons] at hc
        rcases hc with rfl | hc
        · simp [List.length_take]
        · exact ih c hc
      · rw [responseChunks, if_pos rfl, if_neg h]
        simp

theorem chunks_cons_read (hConnect : Handle) (data : Bytes) (l : List Event)
    (h : data.length > 0) :
    chunks (.InternetReadFile hConnect true data :: l) = data :: chunks l := by
  simp only [chunks, readResults, List.filterMap_cons]
  rw [List.takeWhile_cons]
  simp [h]

theorem chunks_cons_fwrite (file : Handle) (data : Bytes) (n : Nat) (l : List Event) :
    chunks (.fwrite file data n :: l) = chunks l := by
  simp [chunks, readResults, List.filterMap_cons]

/-- The loop on a response without failed read and with complete writes: it
reads the chunks of the response up to its end and writes them all. -/
theorem loop_clean (env : Env) (hConnect file : Handle) (reads : List (Bool × Bytes))
    (tr : List Event)
    (hr : ∀ e ∈ loopEvents env hConnect file reads tr, readFailed e = false)
    (hw : ∀ e ∈ loopEvents env hConnect file reads tr, shortWrite e = false) :
    chunks (loopEvents env hConnect file reads tr) = responseChunks reads ∧
    loopBytes env hConnect file reads tr = (responseChunks reads).flatten := by
  induction reads generalizing tr with
  | nil => simp [loopEvents, loopBytes, responseChunks, chunks, readResults]
  | cons r reads ih =>
    obtain ⟨ok, data⟩ := r
    cases ok with
    | false =>
      exfalso
      have := hr (.InternetReadFile hConnect false (data.take 1024))
        (by rw [loopEvents]; simp)
      simp [readFailed] at this
    | true =>
      by_cases h : (List.take 1024 data).length > 0
      · have hcond : (true && decide ((List.take 1024 data).length > 0)) = true := by
          simp only [Bool.true_and, decide_eq_true_eq]; exact h
        rw [loopEvents, if_pos hcond] at hr hw
        rw [loopEvents, if_pos hcond, loopBytes, if_pos hcond]
        have hfull := hw _ (List.mem_cons_of_mem _ (List.mem_cons_self _ _))
        simp only [shortWrite, ne_eq, decide_not, Bool.not_eq_false', decide_eq_true_eq]
          at hfull
        obtain ⟨ih1, ih2⟩ := ih _
          (fun e he => hr e (List.mem_cons_of_mem _ (List.mem_cons_of_mem _ he)))
          (fun e he => hw e (List.mem_cons_of_mem _ (List.mem_cons_of_mem _ he)))
        rw [responseChunks, if_pos rfl, if_pos h]
        constructor
        · rw [chunks_cons_read _ _ _ h, chunks_cons_fwrite, ih1]
        · rw [ih2, hfull, List.take_length, List.flatten_cons]
      · have hcond : ¬ (true && decide ((List.take 1024 data).length > 0)) = true := by
          simp only [Bool.true_and, decide_eq_true_eq]; exact h
        rw [loopEvents, if_neg hcond, loopBytes, if_neg hcond, responseChunks, if_pos rfl,
          if_neg h]
        constructor
        · simp only [chunks, readResults, List.filterMap_cons, List.filterMap_nil]
          rw [List.takeWhile_cons, if_neg hcond]
          rfl
        · rfl

theorem mem_loopEvents (env : Env) (hConnect file : Handle) (reads : List (Bool × Bytes))
    (tr : List Event) (e : Event) (h : e ∈ loopEvents env hConnect file reads tr) :
    (∃ ok data, e = .InternetReadFile hConnect ok data) ∨
    (∃ data n, e = .fwrite file data n) := by
  induction reads generalizing tr with
  | nil => simp [loopEvents] at h; exact Or.inl ⟨_, _, h⟩
  | cons r reads ih =>
    obtain ⟨ok, data⟩ := r
    by_cases hc : (ok && decide ((List.take 1024 data).length > 0)) = true
    · rw [loopEvents, if_pos hc] at h
      simp only [List.mem_cons] at h
      rcases h with rfl | rfl | h
      · exact Or.inl ⟨_, _, rfl⟩
      · exact Or.inr ⟨_, _, rfl⟩
      · exact ih _ h
    · rw [loopEvents, if_neg hc] at h
      simp only [List.mem_singleton] at h
      exact Or.inl ⟨_, _, h⟩

theorem chunks_around (a b l : List Event) (ha : readResults a = []) (hb : readResults b = []) :
    chunks (a ++ l ++ b) = chunks l := by
  have : readResults (a ++ l ++ b) = readResults l := by
    simp only [readResults, List.filterMap_append] at ha hb ⊢
    rw [ha, hb]; simp
  simp only [chunks, this]

/-- C9, as stated, fails: with the session, the URL and the file open,
`downloadFile` returns `true` although the file does not hold the chunks of the
response up to its end.  When the second read fails, the file holds `1 2` of the
response `1 2`, `3`; when the disk takes no byte, or `fclose` fails, the file is
empty though the response is `1 2 3`. -/
theorem downloadFile_incomplete_file :
    ((downloadFile envReadError miniforgeUrl installerPath w0).1 = true ∧
      Event.InternetOpen (some 1)
        ∈ performed w0 (downloadFile envReadError miniforgeUrl installerPath w0).2 ∧
      Event.InternetOpenUrl 1 miniforgeUrl (some 2)
        ∈ performed w0 (downloadFile envReadError miniforgeUrl installerPath w0).2 ∧
      Event.fopen (lit "miniforge_installer.exe") (some 3)
        ∈ performed w0 (downloadFile envReadError miniforgeUrl installerPath w0).2 ∧
      responseChunks (envReadError.InternetReadFile 2) = [[1, 2], [3]] ∧
      (downloadFile envReadError miniforgeUrl installerPath w0).2.files
        (lit "miniforge_installer.exe") = some [1, 2]) ∧
    ((downloadFile envDiskFull miniforgeUrl installerPath w0).1 = true ∧
      Event.fopen (lit "miniforge_installer.exe") (some 3)
        ∈ performed w0 (downloadFile envDiskFull miniforgeUrl installerPath w0).2 ∧
      responseChunks (envDiskFull.InternetReadFile 2) = [[1, 2, 3]] ∧
      (downloadFile envDiskFull miniforgeUrl installerPath w0).2.files
        (lit "miniforge_installer.exe") = some []) ∧
    ((downloadFile envCloseFails miniforgeUrl installerPath w0).1 = true ∧
      Event.fopen (lit "miniforge_installer.exe") (some 3)
        ∈ performed w0 (downloadFile envCloseFails miniforgeUrl installerPath w0).2 ∧
      responseChunks (envCloseFails.InternetReadFile 2) = [[1, 2, 3]] ∧
      (downloadFile envCloseFails miniforgeUrl installerPath w0).2.files
        (lit "miniforge_installer.exe") = some []) := by
  decide

/-- C9, amended: when the session, the URL and the destination file all open,
`downloadFile` returns `true`; when moreover no read fails, every `fwrite`
writes all the bytes it is given and `fclose` succeeds, the reads of the call
are the chunks of the response up to its end, each at most 1024 bytes, and the
destination file then holds exactly these chunks, in order, whatever it held
before; when the session or the URL does not open, `downloadFile` returns
`false`, calls `fopen` not at all and leaves every file as it was. -/
theorem downloadFile_writes_response (env : Env) (url filePath : Bytes) (w : World) :
    (((∃ h, Event.InternetOpen (some h) ∈ performed w (downloadFile env url filePath w).2) ∧
      (∃ h u c, Event.InternetOpenUrl h u (some c)
          ∈ performed w (downloadFile env url filePath w).2) ∧
      (∃ p f, Event.fopen p (some f) ∈ performed w (downloadFile env url filePath w).2)) →
      (downloadFile env url filePath w).1 = true ∧
      ((∀ e ∈ performed w (downloadFile env url filePath w).2, readFailed e = false) →
        (∀ e ∈ performed w (downloadFile env url filePath w).2, shortWrite e = false) →
        (∀ e ∈ performed w (downloadFile env url filePath w).2, closeFailed e = false) →
        ∀ hInternet u hConnect, Event.InternetOpenUrl hInternet u (some hConnect)
            ∈ performed w (downloadFile env url filePath w).2 →
          chunks (performed w (downloadFile env url filePath w).2)
            = responseChunks (env.InternetReadFile hConnect) ∧
          (downloadFile env url filePath w).2.files (c_str filePath)
            = some (responseChunks (env.InternetReadFile hConnect)).flatten ∧
          ∀ c ∈ responseChunks (env.InternetReadFile hConnect), c.length ≤ 1024)) ∧
    ((Event.InternetOpen none ∈ performed w (downloadFile env url filePath w).2 ∨
      (∃ h u, Event.InternetOpenUrl h u none
          ∈ performed w (downloadFile env url filePath w).2)) →
      (downloadFile env url filePath w).1 = false ∧
      (∀ p r, Event.fopen p r ∉ performed w (downloadFile env url filePath w).2) ∧
      (downloadFile env url filePath w).2.files = w.files) := by
  rcases downloadFile_cases env url filePath w with h | ⟨a, h⟩ | ⟨a, b, h⟩ | ⟨a, b, c, d, h⟩
  · rw [h, performed_append _ _ _ rfl]
    simp
  · rw [h, performed_append _ _ _ rfl]
    simp
  · rw [h, performed_append _ _ _ rfl]
    simp
  · rw [h, performed_append _ _ _ rfl]
    generalize hL : loopEvents env b c (env.InternetReadFile b)
      (w.trace ++ [Event.enter_downloadFile url filePath, Event.InternetOpen (some a),
        Event.InternetOpenUrl a (c_str url) (some b),
        Event.fopen (c_str filePath) (some c)]) = L
    have hmemL : ∀ e ∈ L, (∃ ok data, e = .InternetReadFile b ok data) ∨
        (∃ data n, e = .fwrite c data n) := by
      intro e he; rw [← hL] at he; exact mem_loopEvents _ _ _ _ _ e he
    constructor
    · intro _
      refine ⟨rfl, ?_⟩
      intro hr hw hcl hInternet u hConnect hmem
      have hb : hConnect = b := by
        simp only [List.mem_append, List.mem_cons, List.mem_singleton, List.not_mem_nil,
          or_false] at hmem
        rcases hmem with (hm | hm) | hm
        · simp at hm; exact hm.2.2
        · rcases hmemL _ hm with ⟨_, _, he⟩ | ⟨_, _, he⟩ <;> cases he
        · simp at hm
      subst hb
      have hd : d = none := by
        have := hcl (.fclose c d.isNone) (by simp)
        cases d with
        | none => rfl
        | some n => simp [closeFailed] at this
      obtain ⟨hch, hby⟩ := loop_clean env hConnect c (env.InternetReadFile hConnect) _
        (by rw [hL]; intro e he; exact hr e (by simp [he]))
        (by rw [hL]; intro e he; exact hw e (by simp [he]))
      rw [hL] at hch
      have haround := chunks_around
        [Event.enter_downloadFile url filePath, Event.InternetOpen (some a),
          Event.InternetOpenUrl a (c_str url) (some hConnect),
          Event.fopen (c_str filePath) (some c)]
        [Event.fclose c d.isNone, Event.InternetCloseHandle hConnect,
          Event.InternetCloseHandle a, Event.leave_downloadFile true]
        L rfl rfl
      refine ⟨by rw [haround, hch], ?_, responseChunks_length _⟩
      simp [hby, hd, closedBytes]
    · intro hfail
      exfalso
      rcases hfail with hm | ⟨x, u, hm⟩
      · simp only [List.mem_append, List.mem_cons, List.mem_singleton, List.not_mem_nil,
          or_false] at hm
        rcases hm with (hm | hm) | hm
        · simp at hm
        · rcases hmemL _ hm with ⟨_, _, he⟩ | ⟨_, _, he⟩ <;> cases he
        · simp at hm
      · simp only [List.mem_append, List.mem_cons, List.mem_singleton, List.not_mem_nil,
          or_false] at hm
        rcases hm with (hm | hm) | hm
        · simp at hm
        · rcases hmemL _ hm with ⟨_, _, he⟩ | ⟨_, _, he⟩ <;> cases he
        · simp at hm

/-- Witness: the response `1 2`, `3` replaces the old content `9 9` of the file. -/
theorem downloadFile_writes_response_witness :
    ((∃ h, Event.InternetOpen (some h)
        ∈ performed wOld (downloadFile envChunks miniforgeUrl installerPath wOld).2) ∧
      (∃ h u c, Event.InternetOpenUrl h u (some c)
        ∈ performed wOld (downloadFile envChunks miniforgeUrl installerPath wOld).2) ∧
      (∃ p f, Event.fopen p (some f)
        ∈ performed wOld (downloadFile envChunks miniforgeUrl installerPath wOld).2)) ∧
    ((∀ e ∈ performed wOld (downloadFile envChunks miniforgeUrl installerPath wOld).2,
        readFailed e = false) ∧
      (∀ e ∈ performed wOld (downloadFile envChunks miniforgeUrl installerPath wOld).2,
        shortWrite e = false) ∧
      (∀ e ∈ performed wOld (downloadFile envChunks miniforgeUrl installerPath wOld).2,
        closeFailed e = false) ∧
      Event.InternetOpenUrl 1 (c_str miniforgeUrl) (some 2)
        ∈ performed wOld (downloadFile envChunks miniforgeUrl installerPath wOld).2) ∧
    (downloadFile envChunks miniforgeUrl installerPath wOld).1 = true ∧
    (chunks (performed wOld (downloadFile envChunks miniforgeUrl installerPath wOld).2)
        = responseChunks (envChunks.InternetReadFile 2) ∧
      (downloadFile envChunks miniforgeUrl installerPath wOld).2.files (c_str installerPath)
        = some (responseChunks (envChunks.InternetReadFile 2)).flatten ∧
      ∀ c ∈ responseChunks (envChunks.InternetReadFile 2), c.length ≤ 1024) ∧
    responseChunks (envChunks.InternetReadFile 2) = [[1, 2], [3]] :=
  have hyp : (∃ h, Event.InternetOpen (some h)
        ∈ performed wOld (downloadFile envChunks miniforgeUrl installerPath wOld).2) ∧
      (∃ h u c, Event.InternetOpenUrl h u (some c)
        ∈ performed wOld (downloadFile envChunks miniforgeUrl installerPath wOld).2) ∧
      (∃ p f, Event.fopen p (some f)
        ∈ performed wOld (downloadFile envChunks miniforgeUrl installerPath wOld).2) :=
    ⟨⟨1, by decide⟩, ⟨1, c_str miniforgeUrl, 2, by decide⟩, ⟨c_str installerPath, 3, by decide⟩⟩
  ⟨hyp, ⟨by decide, by decide, by decide, by decide⟩,
    ((downloadFile_writes_response envChunks miniforgeUrl installerPath wOld).1 hyp).1,
    ((downloadFile_writes_response envChunks miniforgeUrl installerPath wOld).1 hyp).2
      (by decide) (by decide) (by decide) 1 (c_str miniforgeUrl) 2 (by decide),
    by decide⟩

/-! ## `main use` -/

theorem main_use_run (env : Env) (argv : List Bytes) (w : World)
    (h1 : argv[1]? = some (lit "use")) (h2 : 2 < argv.length) :
    calls (performed w (main env argv w).2)
      = [.enter_executeCommand
          (lit "cmd /C \"conda activate cabm && " ++ joinWithSpaces (argv.drop 2) ++ lit "\"")] ∧
    commandLines (performed w (main env argv w).2)
      = [executeCommand_cmdLine
          (lit "cmd /C \"conda activate cabm && " ++ joinWithSpaces (argv.drop 2) ++ lit "\"")] := by
  have hne : lit "use" ≠ lit "install" := by decide
  have hlen : ¬ argv.length < 2 := by omega
  have hm : main env argv w
      = (if !(executeCommand env
            (lit "cmd /C \"conda activate cabm && " ++ joinWithSpaces (argv.drop 2) ++ lit "\"")
            (cout (lit "[CABM] 执行: " ++ joinWithSpaces (argv.drop 2)) w)).1 then
          (0, cout (lit "命令执行失败。") (executeCommand env
            (lit "cmd /C \"conda activate cabm && " ++ joinWithSpaces (argv.drop 2) ++ lit "\"")
            (cout (lit "[CABM] 执行: " ++ joinWithSpaces (argv.drop 2)) w)).2)
        else (0, (executeCommand env
            (lit "cmd /C \"conda activate cabm && " ++ joinWithSpaces (argv.drop 2) ++ lit "\"")
            (cout (lit "[CABM] 执行: " ++ joinWithSpaces (argv.drop 2)) w)).2)) := by
    simp [main, hlen, h1, hne, h2, main_userCmd_eq argv h2]
  rw [hm]
  rcases executeCommand_cases env
      (lit "cmd /C \"conda activate cabm && " ++ joinWithSpaces (argv.drop 2) ++ lit "\"")
      (cout (lit "[CABM] 执行: " ++ joinWithSpaces (argv.drop 2)) w) with h | ⟨a, b, h⟩
  · rw [h]
    simp only [Bool.not_false, if_true]
    rw [performed_append w _ ([.cout (lit "[CABM] 执行: " ++ joinWithSpaces (argv.drop 2)),
      .enter_executeCommand
        (lit "cmd /C \"conda activate cabm && " ++ joinWithSpaces (argv.drop 2) ++ lit "\""),
      .CreateProcess (executeCommand_cmdLine
        (lit "cmd /C \"conda activate cabm && " ++ joinWithSpaces (argv.drop 2) ++ lit "\"")) none,
      .leave_executeCommand false, .cout (lit "命令执行失败。")]) (by simp)]
    simp [calls, isCall, commandLines]
  · rw [h]
    simp only [Bool.not_true, Bool.false_eq_true, if_false]
    rw [performed_append w _ ([.cout (lit "[CABM] 执行: " ++ joinWithSpaces (argv.drop 2)),
      .enter_executeCommand
        (lit "cmd /C \"conda activate cabm && " ++ joinWithSpaces (argv.drop 2) ++ lit "\""),
      .CreateProcess (executeCommand_cmdLine
        (lit "cmd /C \"conda activate cabm && " ++ joinWithSpaces (argv.drop 2) ++ lit "\""))
        (some (a, b)),
      .WaitForSingleObject a, .CloseHandle a, .CloseHandle b,
      .leave_executeCommand true]) (by simp)]
    simp [calls, isCall, commandLines]

theorem no_nul_joinWithSpaces (args : List Bytes) (h : ∀ a ∈ args, (0 : UInt8) ∉ a) :
    (0 : UInt8) ∉ joinWithSpaces args := by
  have hsp : (0 : UInt8) ∉ lit " " := by decide
  induction args with
  | nil => simp [joinWithSpaces]
  | cons a args ih =>
    cases args with
    | nil => simpa [joinWithSpaces] using h a (by simp)
    | cons b rest =>
      have ha := h a (by simp)
      have hr := ih (fun x hx => h x (by simp [hx]))
      simp only [joinWithSpaces, List.mem_append, not_or]
      exact ⟨⟨ha, hsp⟩, hr⟩

/-- C5, as stated, fails for long commands: after `main.exe use` and one
argument of 1000 bytes the wrapped command string has 1032 bytes, and the
command line that is executed is not that string (it is its first 1023
bytes, without the closing quote). -/
theorem main_use_long_command_cut :
    commandLines (performed w0 (main envOk argvUseLong w0).2)
      ≠ [lit "cmd /C \"conda activate cabm && " ++ joinWithSpaces (argvUseLong.drop 2) ++
          lit "\""] := by
  have h := (main_use_run envOk argvUseLong w0 (by decide) (by decide)).2
  rw [h]
  intro heq
  have hlen := congrArg (fun l => l.map List.length) heq
  have h1 := executeCommand_cmdLine_length
    (lit "cmd /C \"conda activate cabm && " ++ joinWithSpaces (argvUseLong.drop 2) ++ lit "\"")
  have h2 : (lit "cmd /C \"conda activate cabm && " ++ joinWithSpaces (argvUseLong.drop 2) ++
      lit "\"").length = 1032 := by
    have e1 : (lit "cmd /C \"conda activate cabm && ").length = 31 := by decide
    have e2 : (lit "\"").length = 1 := by decide
    simp [argvUseLong, joinWithSpaces, e1, e2]
  simp only [List.map_cons, List.map_nil, List.cons.injEq, and_true] at hlen
  omega

/-- C5, amended: after `use` and one or more arguments (C strings, so without
NUL byte) `main` calls `executeCommand` exactly once and `downloadFile` never;
the command string it passes is `cmd /C "conda activate cabm && `, the
arguments joined with one space between consecutive ones, and a closing `"`;
the command line that is executed is that string when it is at most 1023 bytes
long and otherwise its first 1023 bytes. -/
theorem main_use_command (env : Env) (argv : List Bytes) (w : World)
    (h1 : argv[1]? = some (lit "use")) (h2 : 2 < argv.length)
    (hnul : ∀ a ∈ argv.drop 2, (0 : UInt8) ∉ a) :
    calls (performed w (main env argv w).2)
      = [.enter_executeCommand
          (lit "cmd /C \"conda activate cabm && " ++ joinWithSpaces (argv.drop 2) ++ lit "\"")] ∧
    commandLines (performed w (main env argv w).2)
      = [if (lit "cmd /C \"conda activate cabm && " ++ joinWithSpaces (argv.drop 2) ++
              lit "\"").length ≤ 1023
         then lit "cmd /C \"conda activate cabm && " ++ joinWithSpaces (argv.drop 2) ++ lit "\""
         else (lit "cmd /C \"conda activate cabm && " ++ joinWithSpaces (argv.drop 2) ++
              lit "\"").take 1023] := by
  obtain ⟨hc, hl⟩ := main_use_run env argv w h1 h2
  refine ⟨hc, ?_⟩
  rw [hl, executeCommand_cmdLine_eq]
  have e1 : (0 : UInt8) ∉ lit "cmd /C \"conda activate cabm && " := by decide
  have e2 : (0 : UInt8) ∉ lit "\"" := by decide
  simp only [List.mem_append, not_or]
  exact ⟨⟨e1, no_nul_joinWithSpaces _ hnul⟩, e2⟩

/-- Witness: `main.exe use python run.py`. -/
theorem main_use_command_witness :
    (argvUsePython[1]? = some (lit "use") ∧ 2 < argvUsePython.length ∧
      ∀ a ∈ argvUsePython.drop 2, (0 : UInt8) ∉ a) ∧
    (calls (performed w0 (main envOk argvUsePython w0).2)
        = [.enter_executeCommand
            (lit "cmd /C \"conda activate cabm && " ++ joinWithSpaces (argvUsePython.drop 2) ++
              lit "\"")] ∧
      commandLines (performed w0 (main envOk argvUsePython w0).2)
        = [if (lit "cmd /C \"conda activate cabm && " ++
                joinWithSpaces (argvUsePython.drop 2) ++ lit "\"").length ≤ 1023
           then lit "cmd /C \"conda activate cabm && " ++
                joinWithSpaces (argvUsePython.drop 2) ++ lit "\""
           else (lit "cmd /C \"conda activate cabm && " ++
                joinWithSpaces (argvUsePython.drop 2) ++ lit "\"").take 1023]) ∧
    lit "cmd /C \"conda activate cabm && " ++ joinWithSpaces (argvUsePython.drop 2) ++ lit "\""
      = lit "cmd /C \"conda activate cabm && python run.py\"" :=
  ⟨⟨by decide, by decide, by decide⟩,
    main_use_command envOk argvUsePython w0 (by decide) (by decide) (by decide), by decide⟩

/-! ## The command strings of the program are C strings -/

theorem commands_calls (tr : List Event) : commands (calls tr) = commands tr := by
  induction tr with
  | nil => rfl
  | cons e tr ih =>
    cases e <;> simp_all [commands, calls, isCall, List.filter_cons, List.filterMap_cons]

theorem install_steps_commands (skipConda useLocalPython r1 r2 r3 r4 : Bool) :
    ∀ c ∈ commands (calls (install_steps skipConda useLocalPython r1 r2 r3 r4)),
      (0 : UInt8) ∉ c := by
  cases skipConda <;> cases useLocalPython <;> cases r1 <;> cases r2 <;> cases r3 <;>
    cases r4 <;> decide

/-- Every command string `main` passes to `executeCommand` is free of NUL
bytes when the arguments of the program are (as C strings are). -/
theorem main_commands_no_nul (env : Env) (argv : List Bytes) (w : World)
    (hnul : ∀ a ∈ argv, (0 : UInt8) ∉ a) :
    ∀ c ∈ commands (performed w (main env argv w).2), (0 : UInt8) ∉ c := by
  by_cases hi : argv[1]? = some (lit "install")
  · rw [performed_main_install env argv w hi]
    obtain ⟨r1, r2, r3, r4, -, hc, -, -⟩ := install_observed env
      (decide (lit "--use-local-conda" ∈ argv.drop 2))
      (decide (lit "--use-local-python" ∈ argv.drop 2)) w
    rw [← commands_calls, hc]
    exact install_steps_commands _ _ _ _ _ _
  · by_cases hu : argv[1]? = some (lit "use") ∧ 2 < argv.length
    · obtain ⟨hc, -⟩ := main_use_run env argv w hu.1 hu.2
      rw [← commands_calls, hc]
      intro c hmem
      simp only [commands, List.filterMap_cons, List.filterMap_nil, List.mem_singleton] at hmem
      subst hmem
      have e1 : (0 : UInt8) ∉ lit "cmd /C \"conda activate cabm && " := by decide
      have e2 : (0 : UInt8) ∉ lit "\"" := by decide
      simp only [List.mem_append, not_or]
      exact ⟨⟨e1, no_nul_joinWithSpaces _ (fun a ha => hnul a (List.mem_of_mem_drop ha))⟩, e2⟩
    · have key : main env argv w = (0, printHelp w) := by
        by_cases hlen : argv.length < 2
        · simp [main, hlen]
        · obtain ⟨c, hc⟩ : ∃ c, argv[1]? = some c :=
            ⟨argv[1], List.getElem?_eq_getElem (by omega)⟩
          rw [hc] at hi hu
          simp only [Option.some.injEq] at hi hu
          simp only [main, hlen, if_false, List.getD_eq_getElem?_getD, hc, Option.getD_some, hi]
          rw [if_neg (by simpa using hu)]
      rw [key, performed_append _ _ _ (printHelp_trace w)]
      decide

/-! ## Two runs in full -/

/-- The run of `main.exe use python run.py` when the process can be created. -/
theorem run_use_python :
    performed w0 (main envOk argvUsePython w0).2
      = [.cout (lit "[CABM] 执行: python run.py"),
         .enter_executeCommand (lit "cmd /C \"conda activate cabm && python run.py\""),
         .CreateProcess (lit "cmd /C \"conda activate cabm && python run.py\"") (some (4, 5)),
         .WaitForSingleObject 4, .CloseHandle 4, .CloseHandle 5,
         .leave_executeCommand true] := by
  decide

/-- The download of `main.exe install all` when every call succeeds and the
response arrives as `1 2`, `3`: the events of `downloadFile` and the file left. -/
theorem run_download :
    performed w0 (downloadFile envChunks miniforgeUrl installerPath w0).2
      = [.enter_downloadFile miniforgeUrl installerPath,
         .InternetOpen (some 1),
         .InternetOpenUrl 1 miniforgeUrl (some 2),
         .fopen (lit "miniforge_installer.exe") (some 3),
         .InternetReadFile 2 true [1, 2], .fwrite 3 [1, 2] 2,
         .InternetReadFile 2 true [3], .fwrite 3 [3] 1,
         .InternetReadFile 2 true [],
         .fclose 3 true, .InternetCloseHandle 2, .InternetCloseHandle 1,
         .leave_downloadFile true] ∧
    (downloadFile envChunks miniforgeUrl installerPath wOld).2.files
        (lit "miniforge_installer.exe") = some [1, 2, 3] := by
  decide

end CABM
